import Mathlib

/-!
# Book Notes: the data layer of `script.js`

A shallow embedding of the collection-handling code of the Book Notes application
(`src/script.js`): the in-memory `books` array and the functions that read and change it
(`addBook`, `updateBook`, `deleteBook`, `getBookById`, `sortBooks`, `saveBooks`,
`handleBookSubmit`, `importData`, `exportData`, `loadBooks`, `calculateStats`,
`getCoverUrl`).

JavaScript values are embedded as a datatype, objects as property lists, and thrown
exceptions as `Except`.  What the program obtains from its host (identifiers, timestamps,
the success of a storage write, locale collation, date parsing, string coercions) is read
from an explicit environment `Env`, so every statement below holds for each host behaviour.
-/

namespace BookNotes

/-! ## JavaScript values -/

/-- JavaScript numbers that the rating paths can carry: `NaN`, or an integer.  The integers
are exact; a double represents every integer of magnitude up to `2 ^ 53` exactly, and the
comparisons made by the program on larger magnitudes (including `Infinity`) come out the same
way on the integer. Fractions are not represented. -/
inductive JSNum where
  | nan
  | fin (i : Int)
  deriving DecidableEq, Repr, Inhabited

/-- JavaScript values as `JSON.parse` and the program produce them.  An object is the list of
its property definitions in definition order; a key defined more than once has the value of
its last definition, as in an object literal or a JSON text. -/
inductive JSVal where
  | undefined
  | null
  | bool (b : Bool)
  | num (n : JSNum)
  | str (s : String)
  | arr (xs : List JSVal)
  | obj (fields : List (String × JSVal))
  deriving Repr, Inhabited

/-- A JavaScript object, as its list of property definitions. -/
abbrev Obj := List (String × JSVal)

/-- Exceptions the modelled code can meet. `error msg` is `new Error(msg)` thrown by the
program itself; the other two are thrown by the language. -/
inductive JSError where
  | syntaxError
  | typeError
  | error (msg : String)
  deriving DecidableEq, Repr, Inhabited

/-- The integer-valued number `i` as a value. -/
@[match_pattern] def JSVal.int (i : Int) : JSVal := .num (.fin i)

/-- ToBoolean. -/
def truthy : JSVal → Bool
  | .undefined => false
  | .null => false
  | .bool b => b
  | .num .nan => false
  | .num (.fin i) => i != 0
  | .str s => s != ""
  | .arr _ => true
  | .obj _ => true

/-- The number a primitive other than a string converts to (ToNumber); `none` for strings,
arrays and objects, whose conversion goes through their text. -/
def primNumber : JSVal → Option JSNum
  | .undefined => some .nan
  | .null => some (.fin 0)
  | .bool b => some (.fin (if b then 1 else 0))
  | .num n => some n
  | _ => none

/-- Numeric addition, exact on the integers (a double rounds a sum beyond `2 ^ 53`). -/
def JSNum.add : JSNum → JSNum → JSNum
  | .fin a, .fin b => .fin (a + b)
  | _, _ => .nan

/-- Numeric subtraction. -/
def JSNum.sub : JSNum → JSNum → JSNum
  | .fin a, .fin b => .fin (a - b)
  | _, _ => .nan

/-- The test `x < y`; false when an operand is `NaN`. -/
def JSNum.lt : JSNum → JSNum → Bool
  | .fin a, .fin b => decide (a < b)
  | _, _ => false

/-! ## Strings: `trim` and `parseInt` -/

/-- WhiteSpace and LineTerminator code points, the characters `String.prototype.trim` strips
and `parseInt` skips. -/
def isWhiteSpace (c : Char) : Bool :=
  let n := c.toNat
  n == 0x9 || n == 0xA || n == 0xB || n == 0xC || n == 0xD || n == 0x20 || n == 0xA0 ||
  n == 0x1680 || (0x2000 ≤ n && n ≤ 0x200A) || n == 0x2028 || n == 0x2029 || n == 0x202F ||
  n == 0x205F || n == 0x3000 || n == 0xFEFF

/-- The method `String.prototype.trim`. -/
def trim (s : String) : String :=
  String.mk ((s.data.dropWhile isWhiteSpace).reverse.dropWhile isWhiteSpace).reverse

/-- Value of a character as a digit of the given radix. -/
def digitValue (radix : Nat) (c : Char) : Option Nat :=
  let n := c.toNat
  let v :=
    if 48 ≤ n ∧ n ≤ 57 then some (n - 48)
    else if 97 ≤ n ∧ n ≤ 122 then some (n - 87)
    else if 65 ≤ n ∧ n ≤ 90 then some (n - 55)
    else none
  match v with
  | some d => if d < radix then some d else none
  | none => none

/-- The leading run of digits of the given radix, as digit values. -/
def leadingDigits (radix : Nat) : List Char → List Nat
  | [] => []
  | c :: cs =>
    match digitValue radix c with
    | some d => d :: leadingDigits radix cs
    | none => []

/-- The function `parseInt(string)` called with one argument: leading white space is skipped,
a sign is read, a `0x`/`0X` prefix selects radix 16 (radix 10 otherwise), and the longest run
of digits is converted; `NaN` when there is no digit. -/
def parseInt (s : String) : JSNum :=
  let cs := s.data.dropWhile isWhiteSpace
  let negative := match cs with
    | '-' :: _ => true
    | _ => false
  let cs := match cs with
    | '+' :: r => r
    | '-' :: r => r
    | _ => cs
  let hex := match cs with
    | '0' :: 'x' :: _ => true
    | '0' :: 'X' :: _ => true
    | _ => false
  let radix := if hex then 16 else 10
  let cs := if hex then cs.drop 2 else cs
  let ds := leadingDigits radix cs
  if ds.isEmpty then .nan
  else
    let m : Nat := ds.foldl (fun acc d => acc * radix + d) 0
    .fin (if negative then -(m : Int) else (m : Int))

/-! ## Constants -/

def STORAGE_KEY : String := "bookNotesApp"

def OPEN_LIBRARY_COVERS_API : String := "https://covers.openlibrary.org/b/isbn/"

def DEFAULT_COVER_URL : String :=
  "https://images.unsplash.com/photo-1544716278-ca5e3f4abd8c?ixlib=rb-4.0.3&auto=format&fit=crop&w=600&q=80"

/-! ## Objects -/

/-- The last definition of key `k` in a property list, if any. -/
def lookupProp : Obj → String → Option JSVal
  | [], _ => none
  | (k', v) :: rest, k =>
    match lookupProp rest k with
    | some w => some w
    | none => if k' = k then some v else none

/-- Property read `o.k`: `undefined` when the object has no such property. -/
def getProp (o : Obj) (k : String) : JSVal :=
  (lookupProp o k).getD .undefined

/-- Whether the object has own property `k`. -/
def hasKey (o : Obj) (k : String) : Bool :=
  (lookupProp o k).isSome

/-- Property write `o.k = v`: an existing property keeps its place and takes the new value,
a new property is added at the end. -/
def setProp (o : Obj) (k : String) (v : JSVal) : Obj :=
  if hasKey o k then o.map (fun p => if p.1 = k then (k, v) else p)
  else o ++ [(k, v)]

/-- Spread `...src` inside an object literal whose properties so far are `target`: the own
properties of `src` are defined on it one after the other. -/
def spread (target src : Obj) : Obj :=
  src.foldl (fun acc p => setProp acc p.1 p.2) target

/-! ## The host environment -/

/-- What a handler run obtains from outside the program. -/
structure Env where
  /-- The result of the `n`-th call of `generateId()` in the run (from the clock and
  `Math.random`). -/
  generateId : Nat → String
  /-- The result of `new Date().toISOString()` for the `n`-th record handled in the run. -/
  timestamp : Nat → String
  /-- Whether `localStorage.setItem` succeeds (it throws when the quota is exceeded). -/
  setItemOk : Bool
  /-- ToNumber on strings, arrays and objects. -/
  toNumber : JSVal → JSNum
  /-- ToString on values that are not strings. -/
  toStr : JSVal → String
  /-- The time value of `new Date(v)`, `NaN` for an invalid date. -/
  dateValue : JSVal → JSNum
  /-- The method `String.prototype.localeCompare`. -/
  localeCompare : String → String → JSNum
  /-- The operator `+` when an operand is a string, an array or an object (concatenation
  of the operands converted to text). -/
  concat : JSVal → JSVal → JSVal
  /-- The text of `(v / n).toFixed(1)` when `v` is a string, an array or an object. -/
  quotientFixed : JSVal → Nat → String

/-- ToNumber. -/
def toNumber (env : Env) (v : JSVal) : JSNum :=
  match primNumber v with
  | some n => n
  | none => env.toNumber v

/-! ## Utility functions -/

/-- The function `getCoverUrl(isbn)`.  A truthy argument that is not a string has no `trim`
method, and the call `isbn.trim()` throws a TypeError. -/
def getCoverUrl (isbn : JSVal) : Except JSError String :=
  match isbn with
  | .str s =>
    if truthy (.str s) && trim s != "" then
      .ok (OPEN_LIBRARY_COVERS_API ++ trim s ++ "-M.jpg")
    else .ok DEFAULT_COVER_URL
  | v => if truthy v then .error .typeError else .ok DEFAULT_COVER_URL

/-! ## Sorting -/

/-- Insertion of `x`, which preceded the elements of the list in the array, into the sorted
list: `x` goes before the first element `y` for which `comparefn(x, y)` is not positive.
A `NaN` result counts as `+0`. -/
def sortInsert {α : Type} (cmp : α → α → Except JSError JSNum) (x : α) :
    List α → Except JSError (List α)
  | [] => .ok [x]
  | y :: ys =>
    match cmp x y with
    | .error e => .error e
    | .ok v =>
      if JSNum.lt (.fin 0) v then
        match sortInsert cmp x ys with
        | .error e => .error e
        | .ok r => .ok (y :: r)
      else .ok (x :: y :: ys)

/-- The method `Array.prototype.sort(comparefn)`, a stable sort (ECMAScript 2019 and later),
here by insertion from the right; an exception thrown by the comparison function ends the
sort and leaves the array as it was. For a comparison function that is a consistent order
every stable sort gives this result; for one that is not (a `NaN` difference) the language
leaves the order to the implementation, and the result is a permutation in any case. -/
def arraySort {α : Type} (cmp : α → α → Except JSError JSNum) :
    List α → Except JSError (List α)
  | [] => .ok []
  | x :: xs =>
    match arraySort cmp xs with
    | .error e => .error e
    | .ok r => sortInsert cmp x r

/-- The comparison function `(a, b) => b.rating - a.rating`. -/
def compareRatingDesc (env : Env) (a b : Obj) : Except JSError JSNum :=
  .ok (JSNum.sub (toNumber env (getProp b "rating")) (toNumber env (getProp a "rating")))

/-- The comparison function `(a, b) => new Date(b.dateRead) - new Date(a.dateRead)`. -/
def compareDateDesc (env : Env) (a b : Obj) : Except JSError JSNum :=
  .ok (JSNum.sub (env.dateValue (getProp b "dateRead")) (env.dateValue (getProp a "dateRead")))

/-- The comparison function `(a, b) => new Date(a.dateRead) - new Date(b.dateRead)`. -/
def compareDateAsc (env : Env) (a b : Obj) : Except JSError JSNum :=
  .ok (JSNum.sub (env.dateValue (getProp a "dateRead")) (env.dateValue (getProp b "dateRead")))

/-- The call `x.localeCompare(y)` on property values: a TypeError unless `x` is a string;
`y` is converted to a string. -/
def localeCompareCall (env : Env) (x y : JSVal) : Except JSError JSNum :=
  match x with
  | .str s =>
    match y with
    | .str t => .ok (env.localeCompare s t)
    | w => .ok (env.localeCompare s (env.toStr w))
  | _ => .error .typeError

/-- The comparison function `(a, b) => a.title.localeCompare(b.title)`. -/
def compareTitleAsc (env : Env) (a b : Obj) : Except JSError JSNum :=
  localeCompareCall env (getProp a "title") (getProp b "title")

/-- The comparison function `(a, b) => b.title.localeCompare(a.title)`. -/
def compareTitleDesc (env : Env) (a b : Obj) : Except JSError JSNum :=
  localeCompareCall env (getProp b "title") (getProp a "title")

/-! ## State -/

/-- The module-level state: `books`, `currentBookId` (`none` is `null`) and `sortBy`. -/
structure Store where
  books : List Obj
  currentBookId : Option String
  sortBy : String

/-- The function `sortBooks()`: a `switch` on `sortBy`, no case for other keys. -/
def sortBooks (env : Env) (books : List Obj) (sortBy : String) : Except JSError (List Obj) :=
  if sortBy = "rating-desc" then arraySort (compareRatingDesc env) books
  else if sortBy = "date-desc" then arraySort (compareDateDesc env) books
  else if sortBy = "date-asc" then arraySort (compareDateAsc env) books
  else if sortBy = "title-asc" then arraySort (compareTitleAsc env) books
  else if sortBy = "title-desc" then arraySort (compareTitleDesc env) books
  else .ok books

/-- The function `saveBooks()`, as far as the state goes: the storage write, then
`sortBooks()`, inside one `try`; an exception from either is caught and reported, and
`books` is then as it was on entry. -/
def saveBooks (env : Env) (s : Store) : Store :=
  if env.setItemOk then
    match sortBooks env s.books s.sortBy with
    | .ok sorted => { s with books := sorted }
    | .error _ => s
  else s

/-! ## CRUD operations -/

/-- The test `book.id === id` against an identifier string. -/
def idMatches (id : String) (book : Obj) : Bool :=
  match getProp book "id" with
  | .str s => s == id
  | _ => false

/-- The method `findIndex`: position of the first element satisfying `p`. -/
def findIndex {α : Type} (p : α → Bool) : List α → Option Nat
  | [] => none
  | x :: xs =>
    if p x then some 0
    else
      match findIndex p xs with
      | some i => some (i + 1)
      | none => none

/-- The object literal of `addBook`: `{ id: generateId(), ...bookData, createdAt: ... }`. -/
def newBook (env : Env) (bookData : Obj) : Obj :=
  setProp (spread [("id", .str (env.generateId 0))] bookData) "createdAt"
    (.str (env.timestamp 0))

/-- The function `addBook(bookData)`. -/
def addBook (env : Env) (bookData : Obj) (s : Store) : Store :=
  saveBooks env { s with books := s.books ++ [newBook env bookData] }

/-- The function `updateBook(id, bookData)`, with its return value. -/
def updateBook (env : Env) (id : String) (bookData : Obj) (s : Store) : Store × Bool :=
  match findIndex (idMatches id) s.books with
  | some index =>
    (saveBooks env
      { s with books :=
          s.books.set index (spread (spread [] (s.books.getD index [])) bookData) },
     true)
  | none => (s, false)

/-- The function `deleteBook(id)`, with its return value. -/
def deleteBook (env : Env) (id : String) (s : Store) : Store × Bool :=
  match findIndex (idMatches id) s.books with
  | some index => (saveBooks env { s with books := s.books.eraseIdx index }, true)
  | none => (s, false)

/-- The function `getBookById(id)`; `none` is `undefined`. -/
def getBookById (s : Store) (id : String) : Option Obj :=
  s.books.find? (idMatches id)

/-! ## The book form -/

/-- The values of the form controls read by `handleBookSubmit`. -/
structure Form where
  bookTitle : String
  bookAuthor : String
  bookIsbn : String
  bookDate : String
  bookRating : String
  bookNotes : String

/-- What a handler reported through `showNotification`. -/
inductive Notice where
  | error (message : String)
  | success (message : String)
  | info (message : String)
  deriving DecidableEq, Repr

/-- The object `bookData` built by `handleBookSubmit`. -/
def bookDataOf (form : Form) : Except JSError Obj :=
  match getCoverUrl (.str (trim form.bookIsbn)) with
  | .error e => .error e
  | .ok coverUrl =>
    .ok [("title", .str (trim form.bookTitle)),
         ("author", .str (trim form.bookAuthor)),
         ("isbn", .str (trim form.bookIsbn)),
         ("dateRead", .str form.bookDate),
         ("rating", .num (parseInt form.bookRating)),
         ("notes", .str (trim form.bookNotes)),
         ("coverUrl", .str coverUrl)]

/-- The function `handleBookSubmit(e)`: the new state and the notification shown, if any.
The two validation branches return before any call that touches `books`; the other paths end
in `closeBookModal()`, which resets `currentBookId`. -/
def handleBookSubmit (env : Env) (form : Form) (s : Store) :
    Except JSError (Store × Option Notice) :=
  match bookDataOf form with
  | .error e => .error e
  | .ok bookData =>
    if !truthy (getProp bookData "title") || !truthy (getProp bookData "author")
        || !truthy (getProp bookData "dateRead") then
      .ok (s, some (.error "Please fill in all required fields."))
    else if JSNum.lt (toNumber env (getProp bookData "rating")) (.fin 1)
        || JSNum.lt (.fin 5) (toNumber env (getProp bookData "rating")) then
      .ok (s, some (.error "Rating must be between 1 and 5."))
    else
      match s.currentBookId with
      | some id =>
        if truthy (.str id) then
          let r := updateBook env id bookData s
          .ok ({ r.1 with currentBookId := none },
               if r.2 then some (.success "Book updated successfully!") else none)
        else
          .ok ({ addBook env bookData s with currentBookId := none },
               some (.success "Book added successfully!"))
      | none =>
        .ok ({ addBook env bookData s with currentBookId := none },
             some (.success "Book added successfully!"))


/-! ## Import and export -/

/-- The filter test of `importData`, `book.title && book.author && book.dateRead &&
book.rating`, on one element of `data.books`. Reading a property of `null` or `undefined`
throws a TypeError; numbers, strings, booleans and arrays have none of the four properties. -/
def isValidCandidate : JSVal → Except JSError Bool
  | .undefined => .error .typeError
  | .null => .error .typeError
  | .obj book =>
    .ok (truthy (getProp book "title") && truthy (getProp book "author")
      && truthy (getProp book "dateRead") && truthy (getProp book "rating"))
  | _ => .ok false

/-- The call `data.books.filter(...)` of `importData`: the candidates that pass the test, in
document order. Those that pass are objects. -/
def filterValid : List JSVal → Except JSError (List Obj)
  | [] => .ok []
  | c :: cs =>
    match isValidCandidate c with
    | .error e => .error e
    | .ok keep =>
      match filterValid cs with
      | .error e => .error e
      | .ok rest =>
        match c, keep with
        | .obj book, true => .ok (book :: rest)
        | _, _ => .ok rest

/-- The first two statements of the `forEach` body of `importData` on the `n`-th valid
book: `book.id = generateId()` and `book.createdAt = book.createdAt || new Date()...`. -/
def stampImported (env : Env) (n : Nat) (book : Obj) : Obj :=
  let book1 := setProp book "id" (.str (env.generateId n))
  setProp book1 "createdAt"
    (if truthy (getProp book1 "createdAt") then getProp book1 "createdAt"
     else .str (env.timestamp n))

/-- The body of the `forEach` of `importData` on the `n`-th valid book: a new `id`,
`createdAt` kept when truthy, `coverUrl` derived from a truthy `isbn` when falsy. -/
def normalizeImported (env : Env) (n : Nat) (book : Obj) : Except JSError Obj :=
  let book2 := stampImported env n book
  if !truthy (getProp book2 "coverUrl") && truthy (getProp book2 "isbn") then
    match getCoverUrl (getProp book2 "isbn") with
    | .error e => .error e
    | .ok url => .ok (setProp book2 "coverUrl" (.str url))
  else .ok book2

/-- The `forEach` of `importData` over the valid books, the first of which is number `n`. -/
def normalizeAll (env : Env) : Nat → List Obj → Except JSError (List Obj)
  | _, [] => .ok []
  | n, b :: bs =>
    match normalizeImported env n b with
    | .error e => .error e
    | .ok b' =>
      match normalizeAll env (n + 1) bs with
      | .error e => .error e
      | .ok rest => .ok (b' :: rest)

/-- Property read `v.k` on any value: a TypeError on `null` and `undefined`, the property
of an object, `undefined` on the other values for the keys the program reads. -/
def readProp (v : JSVal) (k : String) : Except JSError JSVal :=
  match v with
  | .undefined => .error .typeError
  | .null => .error .typeError
  | .obj o => .ok (getProp o k)
  | _ => .ok .undefined

/-- The `try` block of `importData` up to the assignment to `books`: the normalised valid
books, or the exception met. `parsed` is the result of `JSON.parse` on the text of the import
field, `none` when it throws a SyntaxError. -/
def importedBooks (env : Env) (parsed : Option JSVal) : Except JSError (List Obj) :=
  match parsed with
  | none => .error .syntaxError
  | some data =>
    match readProp data "books" with
    | .error e => .error e
    | .ok (.arr candidates) =>
      match filterValid candidates with
      | .error e => .error e
      | .ok validBooks =>
        if validBooks.length = 0 then
          .error (.error "No valid books found in the imported data.")
        else normalizeAll env 0 validBooks
    | .ok _ => .error (.error "Invalid data format. Expected an array of books.")

/-- How `importData` ended: the exception reported as "Import failed", or the number of
books reported as imported. -/
inductive ImportOutcome where
  | failed (e : JSError)
  | imported (count : Nat)
  deriving DecidableEq, Repr

/-- The function `importData()`. -/
def importData (env : Env) (parsed : Option JSVal) (s : Store) : Store × ImportOutcome :=
  match importedBooks env parsed with
  | .error e => (s, .failed e)
  | .ok validBooks =>
    (saveBooks env { s with books := s.books ++ validBooks }, .imported validBooks.length)

/-- The object `data` that `exportData()` serialises; `none` when the collection is empty and
the function returns without building it. -/
def exportData (env : Env) (s : Store) : Option JSVal :=
  if s.books.length = 0 then none
  else
    some (.obj [("version", .str "1.0"), ("exportDate", .str (env.timestamp 0)),
      ("books", .arr (s.books.map .obj))])

mutual
/-- The value `JSON.parse(JSON.stringify(v))` for a value `v` held in an array or a
property: `undefined` and `NaN` are written as `null`, properties whose value is `undefined`
are left out (property lists with distinct keys). -/
def jsonValue : JSVal → JSVal
  | .undefined => .null
  | .num .nan => .null
  | .arr xs => .arr (jsonValues xs)
  | .obj fs => .obj (jsonFields fs)
  | v => v
/-- The elements of an array after serialisation and parsing. -/
def jsonValues : List JSVal → List JSVal
  | [] => []
  | x :: xs => jsonValue x :: jsonValues xs
/-- The properties of an object after serialisation and parsing. -/
def jsonFields : List (String × JSVal) → List (String × JSVal)
  | [] => []
  | (_, .undefined) :: fs => jsonFields fs
  | (k, v) :: fs => (k, jsonValue v) :: jsonFields fs
end

/-- The result of `JSON.parse` on the text `JSON.stringify(v, null, 2)`; there is no text
when `v` is `undefined`. -/
def jsonRoundTrip : JSVal → Option JSVal
  | .undefined => none
  | v => some (jsonValue v)

/-- A book record of the data model: the fields `handleBookSubmit` and `addBook` give a
record, where `isbn`, `notes` and `coverUrl` may be missing (records that came in through
`importData` or from storage need not have them). -/
structure BookRecord where
  id : String
  title : String
  author : String
  isbn : Option String
  dateRead : String
  rating : Int
  notes : Option String
  coverUrl : Option String
  createdAt : String

/-- An optional string property. -/
def optionalField (k : String) : Option String → Obj
  | some v => [(k, .str v)]
  | none => []

/-- The object of a book record, with the key order `addBook` gives. -/
def BookRecord.toObj (b : BookRecord) : Obj :=
  [("id", .str b.id), ("title", .str b.title), ("author", .str b.author)]
    ++ optionalField "isbn" b.isbn
    ++ [("dateRead", .str b.dateRead), ("rating", .int b.rating)]
    ++ optionalField "notes" b.notes
    ++ optionalField "coverUrl" b.coverUrl
    ++ [("createdAt", .str b.createdAt)]

/-- The constraints of the data model on a book record: `title`, `author`, `dateRead` and
`createdAt` are not empty and `rating` is in [1,5]. -/
def BookRecord.WellFormed (b : BookRecord) : Prop :=
  b.title ≠ "" ∧ b.author ≠ "" ∧ b.dateRead ≠ "" ∧ 1 ≤ b.rating ∧ b.rating ≤ 5 ∧
    b.createdAt ≠ ""

/-! ## Statistics -/

/-- The operator `+`: addition of numbers when both operands are `undefined`, `null`,
booleans or numbers, concatenation otherwise. -/
def jsPlus (env : Env) (a b : JSVal) : JSVal :=
  match primNumber a, primNumber b with
  | some x, some y => .num (JSNum.add x y)
  | _, _ => env.concat a b

/-- A non-negative double, as the pair `(m, k)` that stands for `m / 2 ^ k`. -/
abbrev Dyadic := Nat × Nat

/-- The exponent of the quotient `a / n`: counting up from `k`, the first exponent with
`2 ^ 52 * n ≤ a * 2 ^ k`, looked for in `fuel` steps. -/
def significandExponent : Nat → Nat → Nat → Nat → Nat
  | 0, _, _, k => k
  | fuel + 1, a, n, k =>
    if a * 2 ^ k < 2 ^ 52 * n then significandExponent fuel a n (k + 1) else k

/-- The double `a / n` for doubles holding the positive integers `a < 2 ^ 53` and `n`
(IEEE 754 binary64 division, round to nearest, ties to even): the exponent `k` is the one
with `2 ^ 52 ≤ a * 2 ^ k / n < 2 ^ 53` (`53 + n` steps reach it), and the 53-bit significand
is the integer nearest to `a * 2 ^ k / n`, the even one on a tie. `0 / n` is `0`. -/
def divDouble (a n : Nat) : Dyadic :=
  if a = 0 then (0, 0)
  else
    let k := significandExponent (53 + n) a n 0
    let scaled := a * 2 ^ k
    let q := scaled / n
    let r := scaled % n
    let m := if 2 * r < n then q else if n < 2 * r then q + 1 else if q % 2 = 0 then q else q + 1
    (m, k)

/-- The integer `N` of `x.toFixed(1)`: the one for which `N / 10 - x` is closest to zero,
the larger one when there are two. -/
def nearestTenths (x : Dyadic) : Nat :=
  (20 * x.1 + 2 ^ x.2) / (2 * 2 ^ x.2)

/-- The text `toFixed(1)` makes of the integer `N`: its decimal digits with a point before
the last one, `0` before the point when there is one digit only. -/
def fixed1Text (N : Nat) : String :=
  Nat.repr (N / 10) ++ "." ++ Nat.repr (N % 10)

/-- The text of `(sum / total).toFixed(1)` for `total > 0`: "NaN" for `NaN`, and for a
negative quotient the sign before the text of its magnitude. -/
def quotientToFixed1 (env : Env) (sum : JSVal) (total : Nat) : String :=
  match primNumber sum with
  | some .nan => "NaN"
  | some (.fin i) =>
    if i < 0 then "-" ++ fixed1Text (nearestTenths (divDouble i.natAbs total))
    else fixed1Text (nearestTenths (divDouble i.natAbs total))
  | none => env.quotientFixed sum total

/-- What `calculateStats()` writes to the page: the text of `#total-books`, the text of
`#avg-rating`, and whether the empty state is displayed. -/
structure Stats where
  totalBooks : Nat
  avgRating : String
  emptyStateShown : Bool

/-- The function `calculateStats()`. -/
def calculateStats (env : Env) (books : List Obj) : Stats :=
  let total := books.length
  let avg :=
    if total > 0 then
      quotientToFixed1 env
        (books.foldl (fun sum book => jsPlus env sum (getProp book "rating")) (.int 0)) total
    else "0.0"
  { totalBooks := total, avgRating := avg, emptyStateShown := total == 0 }

/-- Whether the rating of a record is the integer `r`. -/
def ratingIs (r : Int) (book : Obj) : Bool :=
  match getProp book "rating" with
  | .num (.fin i) => i == r
  | _ => false

/-- The rating of a record whose rating is an integer (`0` for other records). -/
def ratingKey (book : Obj) : Int :=
  match getProp book "rating" with
  | .num (.fin i) => i
  | _ => 0

/-! ## Loading -/

/-- The properties that the comparison functions and `renderBooks` read from an element of
`books`: a TypeError on `null` and `undefined`, the properties of an object, and none (every
read gives `undefined`) on a number, a string, a boolean or an array. -/
def elementProps : JSVal → Except JSError Obj
  | .undefined => .error .typeError
  | .null => .error .typeError
  | .obj o => .ok o
  | _ => .ok []

/-- The body of the `forEach` of `loadBooks` on the element at position `n`, after `calls`
calls of `generateId()`: the element as the body leaves it, and the number of calls made by
then. An element without a truthy `id` gets a generated one (one more call), and without a
truthy `createdAt` the current timestamp. Reading `book.id` throws on `null`. The assignment
to a property of a number, a string or a boolean throws in strict mode and does nothing
otherwise; on an array it adds a named property, which the embedding does not represent. -/
def normalizeLoaded (env : Env) (strict : Bool) (calls n : Nat) :
    JSVal → Except JSError (JSVal × Nat)
  | .undefined => .error .typeError
  | .null => .error .typeError
  | .obj book =>
    let book1 :=
      if !truthy (getProp book "id") then setProp book "id" (.str (env.generateId calls))
      else book
    let book2 :=
      if !truthy (getProp book1 "createdAt") then
        setProp book1 "createdAt" (.str (env.timestamp n))
      else book1
    .ok (.obj book2, if !truthy (getProp book "id") then calls + 1 else calls)
  | .arr xs => .ok (.arr xs, calls + 1)
  | v => if strict then .error .typeError else .ok (v, calls + 1)

/-- The `forEach` of `loadBooks` over the parsed array, from the element at position `n` on,
after `calls` calls of `generateId()`. -/
def normalizeLoadedAll (env : Env) (strict : Bool) :
    Nat → Nat → List JSVal → Except JSError (List JSVal)
  | _, _, [] => .ok []
  | calls, n, b :: bs =>
    match normalizeLoaded env strict calls n b with
    | .error e => .error e
    | .ok (b', calls') =>
      match normalizeLoadedAll env strict calls' (n + 1) bs with
      | .error e => .error e
      | .ok rest => .ok (b' :: rest)

/-- The value of `books` after the `if (data) { try ... } catch ... else ...` of `loadBooks`.
`data` is the result of `localStorage.getItem(STORAGE_KEY)` (`none` is `null`, the key being
absent) and `parsed` the result of `JSON.parse(data)`, `none` when it throws a SyntaxError.
A parsed value that is not an array has no `forEach` method, and the call throws a TypeError;
every exception of the block is caught and `books` is then `[]`. -/
def loadedBooks (env : Env) (strict : Bool) (data : Option String) (parsed : Option JSVal) :
    List JSVal :=
  match data with
  | none => []
  | some text =>
    if truthy (.str text) then
      match parsed with
      | none => []
      | some (.arr xs) =>
        match normalizeLoadedAll env strict 0 0 xs with
        | .error _ => []
        | .ok books => books
      | some _ => []
    else []

/-- A comparison function of `sortBooks` on two elements of `books` that need not be
objects. -/
def compareElements (cmp : Obj → Obj → Except JSError JSNum) (a b : JSVal) :
    Except JSError JSNum :=
  match elementProps a with
  | .error e => .error e
  | .ok pa =>
    match elementProps b with
    | .error e => .error e
    | .ok pb => cmp pa pb

/-- The function `sortBooks()` on a collection whose elements need not be objects, as
`loadBooks` may leave it. -/
def sortLoadedBooks (env : Env) (books : List JSVal) (sortBy : String) :
    Except JSError (List JSVal) :=
  if sortBy = "rating-desc" then arraySort (compareElements (compareRatingDesc env)) books
  else if sortBy = "date-desc" then arraySort (compareElements (compareDateDesc env)) books
  else if sortBy = "date-asc" then arraySort (compareElements (compareDateAsc env)) books
  else if sortBy = "title-asc" then arraySort (compareElements (compareTitleAsc env)) books
  else if sortBy = "title-desc" then arraySort (compareElements (compareTitleDesc env)) books
  else .ok books

/-- The expression `book.coverUrl || getCoverUrl(book.isbn)` of `renderBooks`. -/
def coverSource (book : JSVal) : Except JSError JSVal :=
  match elementProps book with
  | .error e => .error e
  | .ok props =>
    if truthy (getProp props "coverUrl") then .ok (getProp props "coverUrl")
    else
      match getCoverUrl (getProp props "isbn") with
      | .error e => .error e
      | .ok url => .ok (.str url)

/-- The image sources `renderBooks()` computes, one per book in order; an exception thrown by
`getCoverUrl` ends `renderBooks`. -/
def renderedCovers : List JSVal → Except JSError (List JSVal)
  | [] => .ok []
  | b :: bs =>
    match coverSource b with
    | .error e => .error e
    | .ok c =>
      match renderedCovers bs with
      | .error e => .error e
      | .ok cs => .ok (c :: cs)

/-- The function `loadBooks()`: the value of `books` when it returns, or the exception it
propagates. The calls `sortBooks()` and `renderBooks()` that follow the `try` are outside it.
The conversions of property values to text made by `renderBooks` and `calculateStats` are the
host's and are taken to succeed. -/
def loadBooks (env : Env) (strict : Bool) (data : Option String) (parsed : Option JSVal)
    (sortBy : String) : Except JSError (List JSVal) :=
  match sortLoadedBooks env (loadedBooks env strict data parsed) sortBy with
  | .error e => .error e
  | .ok sorted =>
    match renderedCovers sorted with
    | .error e => .error e
    | .ok _ => .ok sorted

/-! ## The rounded mean -/

/-- Follows the spec's words ("arithmetic mean of `rating` over all records, rounded to one
decimal place"): the tenths of the mean `sum / count` rounded to the nearest tenth, a half
rounded up. -/
def meanTenthsHalfUp (sum count : Nat) : Nat :=
  (20 * sum + count) / (2 * count)

/-- Follows the spec's words: the tenths of the mean `sum / count` rounded to the nearest
tenth, a half rounded down. -/
def meanTenthsHalfDown (sum count : Nat) : Nat :=
  (20 * sum + count - 1) / (2 * count)

/-- Whether the mean `sum / count` lies exactly halfway between two tenths. -/
def meanIsHalfway (sum count : Nat) : Bool :=
  (20 * sum + count) % (2 * count) == 0

/-- Follows the spec's words: the tenths of the mean `sum / count` rounded to the nearest
tenth, a half rounded to the even tenth. -/
def meanTenthsHalfEven (sum count : Nat) : Nat :=
  if meanIsHalfway sum count && meanTenthsHalfUp sum count % 2 == 1 then
    meanTenthsHalfUp sum count - 1
  else meanTenthsHalfUp sum count

/-- Whether the double `sum / count` lies below the exact quotient. -/
def quotientBelowMean (sum count : Nat) : Bool :=
  decide ((divDouble sum count).1 * count < sum * 2 ^ (divDouble sum count).2)

/-! ## Concrete inputs -/

/-- A host: identifiers and timestamps by call number, storage writes succeed. -/
def demoEnv : Env where
  generateId := fun n =>
    match n with
    | 0 => "lx3k9a1"
    | 1 => "lx3k9b2"
    | _ => "lx3k9c3"
  timestamp := fun _ => "2024-03-01T10:00:00.000Z"
  setItemOk := true
  toNumber := fun _ => .nan
  toStr := fun _ => ""
  dateValue := fun _ => .nan
  localeCompare := fun _ _ => .fin 0
  concat := fun a _ => a
  quotientFixed := fun _ _ => "NaN"

/-- A stored record. -/
def duneRecord : Obj :=
  [("id", .str "a1"), ("title", .str "Dune"), ("author", .str "Herbert"),
   ("isbn", .str ""), ("dateRead", .str "2024-01-01"), ("rating", .int 5),
   ("notes", .str ""), ("coverUrl", .str DEFAULT_COVER_URL),
   ("createdAt", .str "2024-01-02T08:00:00.000Z")]

/-- Another stored record. -/
def emmaRecord : Obj :=
  [("id", .str "b2"), ("title", .str "Emma"), ("author", .str "Austen"),
   ("isbn", .str ""), ("dateRead", .str "2024-02-01"), ("rating", .int 4),
   ("notes", .str ""), ("coverUrl", .str DEFAULT_COVER_URL),
   ("createdAt", .str "2024-02-02T08:00:00.000Z")]

/-- A store holding the two records, in add mode. -/
def demoStore : Store := { books := [duneRecord, emmaRecord], currentBookId := none, sortBy := "rating-desc" }

/-- The empty store, in add mode. -/
def emptyStore : Store := { books := [], currentBookId := none, sortBy := "rating-desc" }

/-- A book record with an ISBN and no cover URL. -/
def bareRecord : BookRecord :=
  { id := "c3", title := "Ulysses", author := "Joyce", isbn := some "9780141182803",
    dateRead := "2024-02-29", rating := 3, notes := none, coverUrl := none,
    createdAt := "2024-03-01T09:00:00.000Z" }

/-- A record with the given rating. -/
def ratedRecord (id : String) (rating : Int) : Obj :=
  [("id", .str id), ("title", .str "Dune"), ("author", .str "Herbert"),
   ("dateRead", .str "2024-01-01"), ("rating", .int rating)]

/-- Two candidates of an import document: the first has the four required properties, the
second lacks `dateRead` and `rating`. -/
def sampleCandidates : List Obj :=
  [[("id", .str "a1"), ("title", .str "A"), ("author", .str "B"),
    ("dateRead", .str "2024-01-01"), ("rating", .int 3)],
   [("title", .str "C"), ("author", .str "D")]]

/-- A candidate with the four required properties and a numeric `isbn`. -/
def numericIsbnCandidate : Obj :=
  [("title", .str "A"), ("author", .str "B"), ("dateRead", .str "2024-01-01"),
   ("rating", .int 3), ("isbn", .int 9780141182803)]

/-! ## Sorting permutes -/

theorem sortInsert_perm {α : Type} (cmp : α → α → Except JSError JSNum) (x : α) :
    ∀ (l r : List α), sortInsert cmp x l = .ok r → r.Perm (x :: l) := by
  intro l
  induction l with
  | nil =>
    intro r h
    simp [sortInsert] at h
    subst h
    exact List.Perm.refl _
  | cons y ys ih =>
    intro r h
    unfold sortInsert at h
    cases hc : cmp x y with
    | error e => simp [hc] at h
    | ok v =>
      simp only [hc] at h
      by_cases hv : JSNum.lt (.fin 0) v = true
      · simp only [hv, if_true] at h
        cases hrec : sortInsert cmp x ys with
        | error e => simp [hrec] at h
        | ok r' =>
          simp only [hrec, Except.ok.injEq] at h
          subst h
          exact ((ih r' hrec).cons y).trans (List.Perm.swap x y ys)
      · simp only [hv] at h
        simp at h
        subst h
        exact List.Perm.refl _

theorem arraySort_perm {α : Type} (cmp : α → α → Except JSError JSNum) :
    ∀ (l r : List α), arraySort cmp l = .ok r → r.Perm l := by
  intro l
  induction l with
  | nil =>
    intro r h
    simp [arraySort] at h
    subst h
    exact List.Perm.refl _
  | cons x xs ih =>
    intro r h
    unfold arraySort at h
    cases hrec : arraySort cmp xs with
    | error e => simp [hrec] at h
    | ok r' =>
      simp only [hrec] at h
      exact (sortInsert_perm cmp x r' r h).trans ((ih r' hrec).cons x)

theorem sortBooks_perm (env : Env) (books : List Obj) (sortBy : String) (r : List Obj)
    (h : sortBooks env books sortBy = .ok r) : r.Perm books := by
  unfold sortBooks at h
  split_ifs at h
  · exact arraySort_perm _ _ _ h
  · exact arraySort_perm _ _ _ h
  · exact arraySort_perm _ _ _ h
  · exact arraySort_perm _ _ _ h
  · exact arraySort_perm _ _ _ h
  · simp at h
    subst h
    exact List.Perm.refl _

theorem saveBooks_perm (env : Env) (s : Store) : (saveBooks env s).books.Perm s.books := by
  unfold saveBooks
  split_ifs
  · cases h : sortBooks env s.books s.sortBy with
    | error e => exact List.Perm.refl _
    | ok r => exact sortBooks_perm env _ _ r h
  · exact List.Perm.refl _

theorem saveBooks_sortBy (env : Env) (s : Store) : (saveBooks env s).sortBy = s.sortBy := by
  unfold saveBooks
  split_ifs
  · cases h : sortBooks env s.books s.sortBy <;> rfl
  · rfl

theorem saveBooks_currentBookId (env : Env) (s : Store) :
    (saveBooks env s).currentBookId = s.currentBookId := by
  unfold saveBooks
  split_ifs
  · cases h : sortBooks env s.books s.sortBy <;> rfl
  · rfl

/-! ## Searching -/

theorem findIndex_eq_some {α : Type} (p : α → Bool) :
    ∀ (l : List α) (i : Nat), findIndex p l = some i →
      ∃ pre x post, l = pre ++ x :: post ∧ pre.length = i ∧ p x = true ∧
        ∀ y ∈ pre, p y = false := by
  intro l
  induction l with
  | nil => intro i h; simp [findIndex] at h
  | cons a l ih =>
    intro i h
    unfold findIndex at h
    by_cases hp : p a = true
    · simp only [hp, if_true, Option.some.injEq] at h
      subst h
      exact ⟨[], a, l, rfl, rfl, hp, by simp⟩
    · simp only [hp] at h
      cases hrec : findIndex p l with
      | none => simp [hrec] at h
      | some j =>
        simp only [hrec] at h
        simp at h
        obtain ⟨pre, x, post, hl, hlen, hx, hpre⟩ := ih j hrec
        refine ⟨a :: pre, x, post, by simp [hl], by simp [hlen, h], hx, ?_⟩
        intro y hy
        rcases List.mem_cons.mp hy with rfl | hy
        · simpa using hp
        · exact hpre y hy

theorem findIndex_eq_none {α : Type} (p : α → Bool) :
    ∀ (l : List α), findIndex p l = none ↔ ∀ y ∈ l, p y = false := by
  intro l
  induction l with
  | nil => simp [findIndex]
  | cons a l ih =>
    unfold findIndex
    by_cases hp : p a = true
    · simp [hp]
    · cases hrec : findIndex p l with
      | none =>
        have := ih.mp hrec
        simp [hp]
        exact this
      | some j =>
        simp [hp]
        have : ¬ (∀ y ∈ l, p y = false) := fun hh => by
          rw [ih.mpr hh] at hrec; cases hrec
        push_neg at this
        obtain ⟨y, hy, hpy⟩ := this
        exact ⟨y, hy, by simpa using hpy⟩

theorem find?_perm_of_unique {α : Type} (p : α → Bool) (l l' : List α) (x : α)
    (hperm : l'.Perm l) (hx : x ∈ l) (hpx : p x = true)
    (huniq : ∀ y ∈ l, p y = true → y = x) : l'.find? p = some x := by
  cases h : l'.find? p with
  | none =>
    have := List.find?_eq_none.mp h x (hperm.mem_iff.mpr hx)
    simp [hpx] at this
  | some z =>
    have hz : z ∈ l' := List.mem_of_find?_eq_some h
    have hpz : p z = true := List.find?_some h
    rw [huniq z (hperm.mem_iff.mp hz) hpz]


/-! ## Property lists -/

theorem lookupProp_nil (k : String) : lookupProp [] k = none := rfl

theorem lookupProp_cons (k1 : String) (v1 : JSVal) (rest : Obj) (k : String) :
    lookupProp ((k1, v1) :: rest) k =
      (lookupProp rest k).or (if k1 = k then some v1 else none) := by
  simp only [lookupProp]
  cases lookupProp rest k <;> simp

theorem lookupProp_append (a b : Obj) (k : String) :
    lookupProp (a ++ b) k = (lookupProp b k).or (lookupProp a k) := by
  induction a with
  | nil => cases h : lookupProp b k <;> simp [lookupProp_nil, h]
  | cons p a ih =>
    obtain ⟨k', v⟩ := p
    rw [List.cons_append, lookupProp_cons, lookupProp_cons, ih]
    cases lookupProp b k <;> cases lookupProp a k <;> simp

theorem lookupProp_map_set (o : Obj) (k : String) (v : JSVal) (k' : String) :
    lookupProp (o.map (fun p => if p.1 = k then (k, v) else p)) k' =
      if k' = k then (lookupProp o k).map (fun _ => v) else lookupProp o k' := by
  induction o with
  | nil => simp [lookupProp_nil]
  | cons p o ih =>
    obtain ⟨k1, v1⟩ := p
    rw [List.map_cons]
    by_cases h1 : k1 = k
    · have e : (if (k1, v1).1 = k then (k, v) else (k1, v1)) = (k, v) := by simp [h1]
      rw [e]
      simp only [lookupProp_cons, ih]
      by_cases hk : k' = k
      · subst hk
        subst h1
        cases lookupProp o k1 <;> simp
      · have : ¬ k = k' := fun h => hk h.symm
        have h2 : ¬ k1 = k' := fun h => this (h1 ▸ h)
        simp only [hk, if_false, this, h2]
    · have e : (if (k1, v1).1 = k then (k, v) else (k1, v1)) = (k1, v1) := by simp [h1]
      rw [e]
      simp only [lookupProp_cons, ih]
      by_cases hk : k' = k
      · subst hk
        simp only [if_true, h1, if_false]
        cases lookupProp o k' <;> simp
      · simp only [hk, if_false]

theorem lookupProp_setProp (o : Obj) (k : String) (v : JSVal) (k' : String) :
    lookupProp (setProp o k v) k' = if k' = k then some v else lookupProp o k' := by
  unfold setProp
  by_cases h : hasKey o k = true
  · simp only [h, if_true]
    rw [lookupProp_map_set]
    by_cases hk : k' = k
    · simp only [hk, if_true]
      unfold hasKey at h
      cases hl : lookupProp o k with
      | none => simp [hl] at h
      | some w => simp
    · simp [hk]
  · simp only [h]
    rw [if_neg (by simp), lookupProp_append, lookupProp_cons, lookupProp_nil]
    by_cases hk : k' = k
    · subst hk
      simp
    · have : ¬ k = k' := fun h => hk h.symm
      simp [this, hk]

theorem lookupProp_spread (src : Obj) : ∀ (target : Obj) (k : String),
    lookupProp (spread target src) k = (lookupProp src k).or (lookupProp target k) := by
  induction src with
  | nil => intro target k; simp [spread, lookupProp_nil]
  | cons p src ih =>
    intro target k
    obtain ⟨k1, v1⟩ := p
    have hstep : spread target ((k1, v1) :: src) = spread (setProp target k1 v1) src := rfl
    rw [hstep, ih, lookupProp_setProp, lookupProp_cons]
    cases hs : lookupProp src k with
    | some w => simp
    | none =>
      by_cases hk : k = k1
      · subst hk; simp
      · have : ¬ k1 = k := fun h => hk h.symm
        simp [hk, this]

theorem getProp_setProp (o : Obj) (k : String) (v : JSVal) (k' : String) :
    getProp (setProp o k v) k' = if k' = k then v else getProp o k' := by
  unfold getProp
  rw [lookupProp_setProp]
  split_ifs <;> rfl

theorem getProp_spread (target src : Obj) (k : String) :
    getProp (spread target src) k =
      if hasKey src k then getProp src k else getProp target k := by
  unfold getProp hasKey
  rw [lookupProp_spread]
  cases lookupProp src k <;> simp

theorem hasKey_spread (target src : Obj) (k : String) :
    hasKey (spread target src) k = (hasKey src k || hasKey target k) := by
  unfold hasKey
  rw [lookupProp_spread]
  cases lookupProp src k <;> simp


/-! ## Create -/

theorem getCoverUrl_str (s : String) :
    getCoverUrl (.str s) =
      .ok (if (truthy (.str s) && trim s != "") = true
        then OPEN_LIBRARY_COVERS_API ++ trim s ++ "-M.jpg" else DEFAULT_COVER_URL) := by
  by_cases h : (truthy (.str s) && trim s != "") = true
  · simp only [getCoverUrl, h, if_true]
  · simp only [getCoverUrl, h]
    rfl

theorem bookDataOf_ok (form : Form) : ∃ coverUrl,
    bookDataOf form = .ok
      [("title", .str (trim form.bookTitle)),
       ("author", .str (trim form.bookAuthor)),
       ("isbn", .str (trim form.bookIsbn)),
       ("dateRead", .str form.bookDate),
       ("rating", .num (parseInt form.bookRating)),
       ("notes", .str (trim form.bookNotes)),
       ("coverUrl", .str coverUrl)] := by
  unfold bookDataOf
  rw [getCoverUrl_str]
  exact ⟨_, rfl⟩

/-- Submissions the validation turns away: a blank title, author or date, or a rating that
parses to an integer below 1 or above 5, leave the state as it was and report an error. -/
theorem handleBookSubmit_rejects (env : Env) (form : Form) (s : Store)
    (h : trim form.bookTitle = "" ∨ trim form.bookAuthor = "" ∨ form.bookDate = "" ∨
      ∃ i : Int, parseInt form.bookRating = .fin i ∧ (i < 1 ∨ 5 < i)) :
    ∃ msg, handleBookSubmit env form s = .ok (s, some (.error msg)) := by
  obtain ⟨c, hc⟩ := bookDataOf_ok form
  unfold handleBookSubmit
  rw [hc]
  simp only [getProp, lookupProp, toNumber, primNumber]
  by_cases h1 : trim form.bookTitle = ""
  · exact ⟨"Please fill in all required fields.", by simp [h1, truthy]⟩
  by_cases h2 : trim form.bookAuthor = ""
  · exact ⟨"Please fill in all required fields.", by simp [h2, truthy]⟩
  by_cases h3 : form.bookDate = ""
  · exact ⟨"Please fill in all required fields.", by simp [h3, truthy]⟩
  rcases h with h | h | h | ⟨i, hi, hr⟩
  · exact absurd h h1
  · exact absurd h h2
  · exact absurd h h3
  · refine ⟨"Rating must be between 1 and 5.", ?_⟩
    simp [h1, h2, h3, truthy, hi, JSNum.lt]
    omega


/-! ## Positions in a list -/

theorem set_at_length {α : Type} (pre : List α) (x m : α) (post : List α) :
    (pre ++ x :: post).set pre.length m = pre ++ m :: post := by
  induction pre with
  | nil => rfl
  | cons a pre ih => simp [ih]

theorem getD_at_length {α : Type} (pre : List α) (x d : α) (post : List α) :
    (pre ++ x :: post).getD pre.length d = x := by
  induction pre with
  | nil => rfl
  | cons a pre ih => simpa using ih

theorem eraseIdx_at_length {α : Type} (pre : List α) (x : α) (post : List α) :
    (pre ++ x :: post).eraseIdx pre.length = pre ++ post := by
  induction pre with
  | nil => rfl
  | cons a pre ih => simp [ih]

theorem findIndex_isSome_of_mem {α : Type} (p : α → Bool) (l : List α)
    (h : ∃ b ∈ l, p b = true) : ∃ i, findIndex p l = some i := by
  cases hf : findIndex p l with
  | some i => exact ⟨i, rfl⟩
  | none =>
    obtain ⟨b, hb, hpb⟩ := h
    have := (findIndex_eq_none p l).mp hf b hb
    rw [this] at hpb
    cases hpb

/-! ## Objects with distinct keys -/

theorem lookupProp_eq_none_iff (o : Obj) (k : String) :
    lookupProp o k = none ↔ k ∉ o.map Prod.fst := by
  induction o with
  | nil => simp [lookupProp_nil]
  | cons p o ih =>
    obtain ⟨k1, v1⟩ := p
    rw [lookupProp_cons]
    cases h : lookupProp o k with
    | some w =>
      have : ¬ (k ∉ o.map Prod.fst) := fun hh => by
        rw [ih.mpr hh] at h; cases h
      constructor
      · intro hh
        simp [Option.or] at hh
      · intro hh
        exact absurd (fun hm => hh (List.mem_cons_of_mem _ hm)) this
    | none =>
      have hk := ih.mp h
      by_cases e : k1 = k
      · subst e; simp
      · have e' : ¬ k = k1 := fun h => e h.symm
        simp [e, e', hk]

theorem spread_of_nodup (src : Obj) : ∀ (target : Obj),
    ((target ++ src).map Prod.fst).Nodup → spread target src = target ++ src := by
  induction src with
  | nil => intro target _; simp [spread]
  | cons p src ih =>
    intro target hnd
    obtain ⟨k1, v1⟩ := p
    have hstep : spread target ((k1, v1) :: src) = spread (setProp target k1 v1) src := rfl
    have hk : k1 ∉ target.map Prod.fst := by
      intro hmem
      rw [List.map_append, List.nodup_append] at hnd
      exact hnd.2.2 hmem (by simp)
    have hset : setProp target k1 v1 = target ++ [(k1, v1)] := by
      unfold setProp hasKey
      rw [(lookupProp_eq_none_iff target k1).mpr hk]
      rfl
    rw [hstep, hset, ih _ (by simpa using hnd)]
    simp

/-- C1 (the code departs from the claim): a create request whose rating control holds no
number passes the validation of `handleBookSubmit`. `parseInt("")` is `NaN`, both range tests
`rating < 1` and `rating > 5` are false on `NaN`, and `addBook` stores a record whose rating
is `NaN`, outside {1,2,3,4,5}. -/
theorem handleBookSubmit_stores_nan_rating :
    handleBookSubmit demoEnv
        { bookTitle := "Dune", bookAuthor := "Herbert", bookIsbn := "",
          bookDate := "2024-01-01", bookRating := "", bookNotes := "" } emptyStore =
      .ok ({ books :=
              [[("id", .str "lx3k9a1"), ("title", .str "Dune"), ("author", .str "Herbert"),
                ("isbn", .str ""), ("dateRead", .str "2024-01-01"), ("rating", .num .nan),
                ("notes", .str ""), ("coverUrl", .str DEFAULT_COVER_URL),
                ("createdAt", .str "2024-03-01T10:00:00.000Z")]],
             currentBookId := none, sortBy := "rating-desc" },
           some (.success "Book added successfully!")) := by
  rfl

/-- C2: `addBook(fields)` for a field set that carries no `id` of its own, with a generated
identifier no stored record has: the collection has exactly one more record, and
`getBookById` on the generated identifier returns the new record, whose `id` is the
generated identifier, whose `createdAt` is the current timestamp and whose other fields are
the supplied ones. -/
theorem addBook_then_getBookById (env : Env) (s : Store) (bookData : Obj)
    (hid : hasKey bookData "id" = false)
    (hfresh : ∀ b ∈ s.books, idMatches (env.generateId 0) b = false) :
    (addBook env bookData s).books.length = s.books.length + 1 ∧
    ∃ r, getBookById (addBook env bookData s) (env.generateId 0) = some r ∧
      r = newBook env bookData ∧
      getProp r "id" = .str (env.generateId 0) ∧
      getProp r "createdAt" = .str (env.timestamp 0) ∧
      ∀ k, k ≠ "id" → k ≠ "createdAt" → getProp r k = getProp bookData k := by
  have hperm : (addBook env bookData s).books.Perm (s.books ++ [newBook env bookData]) :=
    saveBooks_perm env _
  have hidv : getProp (newBook env bookData) "id" = .str (env.generateId 0) := by
    unfold newBook
    rw [getProp_setProp, if_neg (by decide), getProp_spread, hid]
    rfl
  have hmatch : idMatches (env.generateId 0) (newBook env bookData) = true := by
    unfold idMatches
    rw [hidv]
    simp
  refine ⟨by simpa using hperm.length_eq, newBook env bookData, ?_, rfl, hidv, ?_, ?_⟩
  · unfold getBookById
    refine find?_perm_of_unique _ _ _ _ hperm (by simp) hmatch ?_
    intro y hy hpy
    rcases List.mem_append.mp hy with hy | hy
    · rw [hfresh y hy] at hpy
      cases hpy
    · simpa using hy
  · unfold newBook
    rw [getProp_setProp, if_pos rfl]
  · intro k hk1 hk2
    unfold newBook
    rw [getProp_setProp, if_neg hk2, getProp_spread]
    by_cases hk : hasKey bookData k = true
    · rw [if_pos hk]
    · rw [if_neg hk]
      have hnone : lookupProp bookData k = none := by
        unfold hasKey at hk
        cases h : lookupProp bookData k with
        | none => rfl
        | some w => simp [h] at hk
      have hk1' : ¬ "id" = k := fun h => hk1 h.symm
      simp [getProp, hnone, lookupProp_cons, lookupProp_nil, hk1']

theorem addBook_then_getBookById_witness :
    (addBook demoEnv [("title", .str "Ulysses"), ("author", .str "Joyce"),
        ("dateRead", .str "2024-02-29"), ("rating", .int 3)] demoStore).books.length
      = demoStore.books.length + 1 ∧
    ∃ r, getBookById (addBook demoEnv [("title", .str "Ulysses"), ("author", .str "Joyce"),
        ("dateRead", .str "2024-02-29"), ("rating", .int 3)] demoStore)
          (demoEnv.generateId 0) = some r ∧
      r = newBook demoEnv [("title", .str "Ulysses"), ("author", .str "Joyce"),
        ("dateRead", .str "2024-02-29"), ("rating", .int 3)] ∧
      getProp r "id" = .str (demoEnv.generateId 0) ∧
      getProp r "createdAt" = .str (demoEnv.timestamp 0) ∧
      ∀ k, k ≠ "id" → k ≠ "createdAt" → getProp r k =
        getProp [("title", .str "Ulysses"), ("author", .str "Joyce"),
          ("dateRead", .str "2024-02-29"), ("rating", .int 3)] k :=
  addBook_then_getBookById demoEnv demoStore _ (by rfl) (by
    intro b hb
    simp only [demoStore, List.mem_cons, List.mem_singleton, List.not_mem_nil, or_false] at hb
    rcases hb with rfl | rfl <;> rfl)


/-- C3: `updateBook(id, fields)` for an `id` present in the collection returns `true` and
replaces the first record carrying that `id` (the collection is then re-ordered by
`saveBooks`). In the replacement every supplied field has its new value and every other
field keeps its old value; `id` and `createdAt`, which a field set does not supply, are as
before; and with the empty field set every property reads as before, the record itself
being the same object content when its keys are distinct. -/
theorem updateBook_merges_fields (env : Env) (s : Store) (id : String) (bookData : Obj)
    (hpresent : ∃ b ∈ s.books, idMatches id b = true) :
    ∃ pre old post merged,
      s.books = pre ++ old :: post ∧ (∀ b ∈ pre, idMatches id b = false) ∧
      idMatches id old = true ∧
      (updateBook env id bookData s).2 = true ∧
      (updateBook env id bookData s).1.books.Perm (pre ++ merged :: post) ∧
      (∀ k, getProp merged k =
        if hasKey bookData k then getProp bookData k else getProp old k) ∧
      (hasKey bookData "id" = false → getProp merged "id" = getProp old "id") ∧
      (hasKey bookData "createdAt" = false →
        getProp merged "createdAt" = getProp old "createdAt") ∧
      (bookData = [] → ∀ k, getProp merged k = getProp old k) ∧
      (bookData = [] → (old.map Prod.fst).Nodup → merged = old) := by
  obtain ⟨i, hi⟩ := findIndex_isSome_of_mem (idMatches id) s.books hpresent
  obtain ⟨pre, old, post, hl, hlen, hold, hpre⟩ := findIndex_eq_some _ _ _ hi
  have hget : ∀ k, getProp (spread (spread [] old) bookData) k =
      if hasKey bookData k then getProp bookData k else getProp old k := by
    intro k
    rw [getProp_spread, getProp_spread]
    by_cases h1 : hasKey bookData k = true
    · simp [h1]
    · simp only [h1]
      by_cases h2 : hasKey old k = true
      · simp [h2]
      · have hn : lookupProp old k = none := by
          unfold hasKey at h2
          cases h : lookupProp old k with
          | none => rfl
          | some w => simp [h] at h2
        simp [h2, getProp, hn, lookupProp_nil]
  refine ⟨pre, old, post, spread (spread [] old) bookData, hl, hpre, hold, ?_, ?_, hget,
    ?_, ?_, ?_, ?_⟩
  · unfold updateBook
    rw [hi]
  · unfold updateBook
    rw [hi]
    refine (saveBooks_perm env _).trans ?_
    subst hlen
    simp only [hl]
    rw [set_at_length, getD_at_length]
  · intro h
    rw [hget, h]
    rfl
  · intro h
    rw [hget, h]
    rfl
  · intro h k
    rw [hget, h]
    rfl
  · intro h hnd
    subst h
    show spread [] old = old
    rw [spread_of_nodup old [] (by simpa using hnd)]
    rfl

theorem updateBook_merges_fields_witness :
    ∃ pre old post merged,
      demoStore.books = pre ++ old :: post ∧ (∀ b ∈ pre, idMatches "b2" b = false) ∧
      idMatches "b2" old = true ∧
      (updateBook demoEnv "b2" [("rating", .int 2)] demoStore).2 = true ∧
      (updateBook demoEnv "b2" [("rating", .int 2)] demoStore).1.books.Perm
        (pre ++ merged :: post) ∧
      (∀ k, getProp merged k =
        if hasKey [("rating", .int 2)] k then getProp [("rating", .int 2)] k
        else getProp old k) ∧
      (hasKey [("rating", JSVal.int 2)] "id" = false → getProp merged "id" = getProp old "id") ∧
      (hasKey [("rating", JSVal.int 2)] "createdAt" = false →
        getProp merged "createdAt" = getProp old "createdAt") ∧
      (([("rating", .int 2)] : Obj) = [] → ∀ k, getProp merged k = getProp old k) ∧
      (([("rating", .int 2)] : Obj) = [] → (old.map Prod.fst).Nodup → merged = old) :=
  updateBook_merges_fields demoEnv demoStore "b2" [("rating", .int 2)]
    ⟨emmaRecord, by simp [demoStore], by rfl⟩

/-- C4: when exactly one record of the collection carries `id`, `deleteBook(id)` returns
`true`, a second `deleteBook(id)` returns `false` and changes nothing, and the collection
then has exactly one record less than at the start; for an identifier that no record
carries, `deleteBook` returns `false` and leaves the state as it was. -/
theorem deleteBook_twice (env env' : Env) (s : Store) (id : String)
    (hone : s.books.countP (idMatches id) = 1) :
    (deleteBook env id s).2 = true ∧
    deleteBook env' id (deleteBook env id s).1 = ((deleteBook env id s).1, false) ∧
    (deleteBook env' id (deleteBook env id s).1).1.books.length + 1 = s.books.length ∧
    ∀ (e : Env) (t : Store) (id' : String),
      t.books.countP (idMatches id') = 0 → deleteBook e id' t = (t, false) := by
  have habsent : ∀ (e : Env) (t : Store) (id' : String),
      t.books.countP (idMatches id') = 0 → deleteBook e id' t = (t, false) := by
    intro e t id' h0
    have hnone : findIndex (idMatches id') t.books = none := by
      rw [findIndex_eq_none]
      intro y hy
      have := List.countP_eq_zero.mp h0 y hy
      simpa using this
    unfold deleteBook
    rw [hnone]
  have hex : ∃ b ∈ s.books, idMatches id b = true := by
    have hpos : 0 < s.books.countP (idMatches id) := by omega
    obtain ⟨b, hb, hpb⟩ := List.countP_pos_iff.mp hpos
    exact ⟨b, hb, hpb⟩
  obtain ⟨i, hi⟩ := findIndex_isSome_of_mem (idMatches id) s.books hex
  obtain ⟨pre, old, post, hl, hlen, hold, hpre⟩ := findIndex_eq_some _ _ _ hi
  have hfirst : deleteBook env id s =
      (saveBooks env { s with books := pre ++ post }, true) := by
    unfold deleteBook
    rw [hi]
    subst hlen
    simp only [hl]
    rw [eraseIdx_at_length]
  have hperm : (deleteBook env id s).1.books.Perm (pre ++ post) := by
    rw [hfirst]
    exact saveBooks_perm env _
  have hcount : (deleteBook env id s).1.books.countP (idMatches id) = 0 := by
    rw [hperm.countP_eq]
    rw [hl] at hone
    simp only [List.countP_append, List.countP_cons, hold, if_true] at hone ⊢
    omega
  have hsecond := habsent env' (deleteBook env id s).1 id hcount
  refine ⟨by rw [hfirst], hsecond, ?_, habsent⟩
  rw [hsecond]
  simp only
  rw [hperm.length_eq, hl]
  simp
  omega

theorem deleteBook_twice_witness :
    (deleteBook demoEnv "a1" demoStore).2 = true ∧
    deleteBook demoEnv "a1" (deleteBook demoEnv "a1" demoStore).1 =
      ((deleteBook demoEnv "a1" demoStore).1, false) ∧
    (deleteBook demoEnv "a1" (deleteBook demoEnv "a1" demoStore).1).1.books.length + 1 =
      demoStore.books.length ∧
    ∀ (e : Env) (t : Store) (id' : String),
      t.books.countP (idMatches id') = 0 → deleteBook e id' t = (t, false) :=
  deleteBook_twice demoEnv demoEnv demoStore "a1" (by rfl)

/-! ## Import -/

theorem importedBooks_ok (env : Env) (parsed : Option JSVal) (added : List Obj)
    (h : importedBooks env parsed = .ok added) :
    ∃ fs cands valid, parsed = some (.obj fs) ∧ getProp fs "books" = .arr cands ∧
      filterValid cands = .ok valid ∧ valid ≠ [] ∧ normalizeAll env 0 valid = .ok added := by
  unfold importedBooks at h
  cases parsed with
  | none => simp at h
  | some data =>
    cases data with
    | obj fs =>
      simp only [readProp] at h
      cases hb : getProp fs "books" with
      | arr cands =>
        simp only [hb] at h
        cases hf : filterValid cands with
        | error e => simp [hf] at h
        | ok valid =>
          simp only [hf] at h
          by_cases hz : valid.length = 0
          · simp [hz] at h
          · simp only [hz, if_false] at h
            exact ⟨fs, cands, valid, rfl, hb, hf, fun hn => hz (by simp [hn]), h⟩
      | undefined => simp [hb] at h
      | null => simp [hb] at h
      | bool b => simp [hb] at h
      | num n => simp [hb] at h
      | str t => simp [hb] at h
      | obj o => simp [hb] at h
    | undefined => simp [readProp] at h
    | null => simp [readProp] at h
    | bool b => simp [readProp] at h
    | num n => simp [readProp] at h
    | str t => simp [readProp] at h
    | arr xs => simp [readProp] at h

theorem normalizeAll_spec (env : Env) : ∀ (bs : List Obj) (n : Nat) (added : List Obj),
    normalizeAll env n bs = .ok added →
      added.length = bs.length ∧
      ∀ i a, added[i]? = some a →
        ∃ b, bs[i]? = some b ∧ normalizeImported env (n + i) b = .ok a := by
  intro bs
  induction bs with
  | nil =>
    intro n added h
    simp [normalizeAll] at h
    subst h
    simp
  | cons b bs ih =>
    intro n added h
    unfold normalizeAll at h
    cases hb : normalizeImported env n b with
    | error e => simp [hb] at h
    | ok b' =>
      simp only [hb] at h
      cases hr : normalizeAll env (n + 1) bs with
      | error e => simp [hr] at h
      | ok rest =>
        simp only [hr, Except.ok.injEq] at h
        subst h
        obtain ⟨hlen, hall⟩ := ih (n + 1) rest hr
        refine ⟨by simp [hlen], ?_⟩
        intro i a hia
        cases i with
        | zero =>
          simp at hia
          subst hia
          exact ⟨b, by simp, hb⟩
        | succ j =>
          simp at hia
          obtain ⟨b₂, hb₂, hn⟩ := hall j a hia
          refine ⟨b₂, by simpa using hb₂, ?_⟩
          have e : n + (j + 1) = n + 1 + j := by omega
          rw [e]
          exact hn

theorem getProp_stampImported (env : Env) (n : Nat) (book : Obj) (k : String) :
    getProp (stampImported env n book) k =
      if k = "createdAt" then
        (if truthy (getProp book "createdAt") then getProp book "createdAt"
         else .str (env.timestamp n))
      else if k = "id" then .str (env.generateId n)
      else getProp book k := by
  unfold stampImported
  simp only [getProp_setProp]
  have e : ¬ ("createdAt" = "id") := by decide
  simp only [e, if_false]

theorem normalizeImported_ok (env : Env) (n : Nat) (book a : Obj)
    (h : normalizeImported env n book = .ok a) :
    (∀ k, k ≠ "coverUrl" → getProp a k = getProp (stampImported env n book) k) ∧
    ((truthy (getProp book "coverUrl") = true ∨ truthy (getProp book "isbn") = false) →
      a = stampImported env n book) ∧
    (truthy (getProp book "coverUrl") = false → truthy (getProp book "isbn") = true →
      ∃ url, getCoverUrl (getProp book "isbn") = .ok url ∧
        a = setProp (stampImported env n book) "coverUrl" (.str url)) := by
  have hc : getProp (stampImported env n book) "coverUrl" = getProp book "coverUrl" := by
    rw [getProp_stampImported, if_neg (by decide), if_neg (by decide)]
  have hi : getProp (stampImported env n book) "isbn" = getProp book "isbn" := by
    rw [getProp_stampImported, if_neg (by decide), if_neg (by decide)]
  unfold normalizeImported at h
  simp only [hc, hi] at h
  by_cases hcond : (!truthy (getProp book "coverUrl") && truthy (getProp book "isbn")) = true
  · simp only [hcond, if_true] at h
    have hcov : truthy (getProp book "coverUrl") = false := by
      cases hh : truthy (getProp book "coverUrl") <;> simp [hh] at hcond ⊢
    have hisbn : truthy (getProp book "isbn") = true := by
      cases hh : truthy (getProp book "isbn") <;> simp [hh] at hcond ⊢
    cases hu : getCoverUrl (getProp book "isbn") with
    | error e => simp [hu] at h
    | ok url =>
      simp only [hu, Except.ok.injEq] at h
      subst h
      refine ⟨?_, ?_, ?_⟩
      · intro k hk
        rw [getProp_setProp, if_neg hk]
      · intro hor
        rcases hor with hor | hor
        · rw [hor] at hcov; cases hcov
        · rw [hor] at hisbn; cases hisbn
      · intro _ _
        exact ⟨url, rfl, rfl⟩
  · simp only [hcond] at h
    simp only [Bool.false_eq_true, if_false, Except.ok.injEq] at h
    subst h
    refine ⟨fun _ _ => rfl, fun _ => rfl, ?_⟩
    intro h1 h2
    simp [h1, h2] at hcond

theorem normalizeImported_id (env : Env) (n : Nat) (book a : Obj)
    (h : normalizeImported env n book = .ok a) :
    getProp a "id" = .str (env.generateId n) := by
  rw [(normalizeImported_ok env n book a h).1 "id" (by decide), getProp_stampImported,
    if_neg (by decide), if_pos rfl]

/-- The test of the import filter on an object. -/
theorem filterValid_objects (cs : List Obj) :
    filterValid (cs.map .obj) =
      .ok (cs.filter (fun book => truthy (getProp book "title") && truthy (getProp book "author")
        && truthy (getProp book "dateRead") && truthy (getProp book "rating"))) := by
  induction cs with
  | nil => rfl
  | cons c cs ih =>
    rw [List.map_cons]
    unfold filterValid
    simp only [isValidCandidate, ih]
    rw [List.filter_cons]
    cases hk : (truthy (getProp c "title") && truthy (getProp c "author")
        && truthy (getProp c "dateRead") && truthy (getProp c "rating")) with
    | true => simp
    | false => simp

theorem truthy_getProp_iff (o : Obj) (k : String) :
    truthy (getProp o k) = true ↔ ∃ v, lookupProp o k = some v ∧ truthy v = true := by
  unfold getProp
  cases h : lookupProp o k with
  | none => simp [truthy]
  | some w => simp
theorem importData_failed_unchanged (env : Env) (parsed : Option JSVal) (s : Store)
    (e : JSError) (h : importedBooks env parsed = .error e) :
    importData env parsed s = (s, .failed e) := by
  unfold importData
  rw [h]

/-- C5: an import text that is not parseable as JSON, or whose top-level value has no `books`
property holding an array, or in which no candidate passes the filter, makes `importData`
report a failure and leaves the state, `books` included, exactly as it was; and whenever
`importData` reports a failure the state is as it was. -/
theorem importData_no_partial_import (env : Env) (parsed : Option JSVal) (s : Store)
    (h : parsed = none ∨
      (∃ data, parsed = some data ∧
        ∀ fs cands, data = .obj fs → getProp fs "books" ≠ .arr cands) ∨
      (∃ fs cands, parsed = some (.obj fs) ∧ getProp fs "books" = .arr cands ∧
        filterValid cands = .ok [])) :
    (∃ e, importData env parsed s = (s, .failed e)) ∧
    ∀ (p : Option JSVal) (e : JSError),
      (importData env p s).2 = .failed e → (importData env p s).1 = s := by
  constructor
  · cases hr : importedBooks env parsed with
    | error e => exact ⟨e, importData_failed_unchanged env parsed s e hr⟩
    | ok added =>
      obtain ⟨fs, cands, valid, hp, hb, hf, hne, _⟩ := importedBooks_ok env parsed added hr
      rcases h with h | ⟨data, hd, hno⟩ | ⟨fs', cands', hp', hb', hf'⟩
      · rw [h] at hp; cases hp
      · rw [hd] at hp
        simp only [Option.some.injEq] at hp
        exact absurd hb (hno fs cands hp)
      · rw [hp'] at hp
        simp only [Option.some.injEq, JSVal.obj.injEq] at hp
        subst hp
        rw [hb'] at hb
        simp only [JSVal.arr.injEq] at hb
        subst hb
        rw [hf'] at hf
        simp only [Except.ok.injEq] at hf
        exact absurd hf.symm hne
  · intro p e hfail
    unfold importData at hfail ⊢
    cases hr : importedBooks env p with
    | error e' => rfl
    | ok added => simp [hr] at hfail

theorem importData_no_partial_import_witness :
    (∃ e, importData demoEnv
        (some (.obj [("books", .arr [.obj [("title", .str "A"), ("author", .str "B")]])]))
        demoStore = (demoStore, .failed e)) ∧
    ∀ (p : Option JSVal) (e : JSError),
      (importData demoEnv p demoStore).2 = .failed e → (importData demoEnv p demoStore).1 = demoStore :=
  importData_no_partial_import demoEnv
    (some (.obj [("books", .arr [.obj [("title", .str "A"), ("author", .str "B")]])]))
    demoStore (Or.inr (Or.inr ⟨_, _, rfl, rfl, rfl⟩))

/-- C7: when `importData` reports `n` books imported, `n` candidates passed the filter, the
collection is the old one together with the `n` normalised candidates (re-ordered by
`saveBooks`): every record that was there is still there, the size is the old size plus `n`,
and the `i`-th accepted record carries the identifier returned by the `i`-th call of
`generateId`, whatever `id` the document gave it. -/
theorem importData_appends (env : Env) (parsed : Option JSVal) (s : Store) (n : Nat)
    (h : (importData env parsed s).2 = .imported n) :
    ∃ fs cands valid added,
      parsed = some (.obj fs) ∧ getProp fs "books" = .arr cands ∧
      filterValid cands = .ok valid ∧ valid.length = n ∧
      normalizeAll env 0 valid = .ok added ∧ added.length = n ∧
      (importData env parsed s).1.books.Perm (s.books ++ added) ∧
      (∀ b ∈ s.books, b ∈ (importData env parsed s).1.books) ∧
      (importData env parsed s).1.books.length = s.books.length + n ∧
      ∀ i a, added[i]? = some a → getProp a "id" = .str (env.generateId i) := by
  unfold importData at h ⊢
  cases hr : importedBooks env parsed with
  | error e => simp [hr] at h
  | ok added =>
    simp only [hr, ImportOutcome.imported.injEq] at h ⊢
    obtain ⟨fs, cands, valid, hp, hb, hf, _, hnorm⟩ := importedBooks_ok env parsed added hr
    obtain ⟨hlen, hall⟩ := normalizeAll_spec env valid 0 added hnorm
    have hperm := saveBooks_perm env { s with books := s.books ++ added }
    refine ⟨fs, cands, valid, added, hp, hb, hf, by omega, hnorm, h, hperm, ?_, ?_, ?_⟩
    · intro b hb
      exact hperm.mem_iff.mpr (List.mem_append_left _ hb)
    · rw [hperm.length_eq, List.length_append, h]
    · intro i a hia
      obtain ⟨b, _, hn⟩ := hall i a hia
      have := normalizeImported_id env (0 + i) b a hn
      simpa using this

theorem importData_appends_witness :
    ∃ fs cands valid added,
      some (JSVal.obj [("books", .arr [.obj [("id", .str "a1"), ("title", .str "A"),
        ("author", .str "B"), ("dateRead", .str "2024-01-01"), ("rating", .int 3)]])])
        = some (.obj fs) ∧ getProp fs "books" = .arr cands ∧
      filterValid cands = .ok valid ∧ valid.length = 1 ∧
      normalizeAll demoEnv 0 valid = .ok added ∧ added.length = 1 ∧
      (importData demoEnv (some (.obj [("books", .arr [.obj [("id", .str "a1"),
        ("title", .str "A"), ("author", .str "B"), ("dateRead", .str "2024-01-01"),
        ("rating", .int 3)]])])) demoStore).1.books.Perm (demoStore.books ++ added) ∧
      (∀ b ∈ demoStore.books, b ∈ (importData demoEnv (some (.obj [("books", .arr [.obj
        [("id", .str "a1"), ("title", .str "A"), ("author", .str "B"),
         ("dateRead", .str "2024-01-01"), ("rating", .int 3)]])])) demoStore).1.books) ∧
      (importData demoEnv (some (.obj [("books", .arr [.obj [("id", .str "a1"),
        ("title", .str "A"), ("author", .str "B"), ("dateRead", .str "2024-01-01"),
        ("rating", .int 3)]])])) demoStore).1.books.length = demoStore.books.length + 1 ∧
      ∀ i a, added[i]? = some a → getProp a "id" = .str (demoEnv.generateId i) :=
  importData_appends demoEnv _ demoStore 1 (by rfl)
/-! ## Round trip through the export document -/

theorem getProp_toObj (b : BookRecord) :
    getProp b.toObj "id" = .str b.id ∧
    getProp b.toObj "title" = .str b.title ∧
    getProp b.toObj "author" = .str b.author ∧
    getProp b.toObj "dateRead" = .str b.dateRead ∧
    getProp b.toObj "rating" = .int b.rating ∧
    getProp b.toObj "createdAt" = .str b.createdAt ∧
    getProp b.toObj "isbn" = (match b.isbn with
      | some v => .str v
      | none => .undefined) ∧
    getProp b.toObj "notes" = (match b.notes with
      | some v => .str v
      | none => .undefined) ∧
    getProp b.toObj "coverUrl" = (match b.coverUrl with
      | some v => .str v
      | none => .undefined) := by
  obtain ⟨id, title, author, isbn, dateRead, rating, notes, coverUrl, createdAt⟩ := b
  cases isbn <;> cases notes <;> cases coverUrl <;>
    exact ⟨rfl, rfl, rfl, rfl, rfl, rfl, rfl, rfl, rfl⟩

theorem jsonValue_toObj (b : BookRecord) : jsonValue (.obj b.toObj) = .obj b.toObj := by
  obtain ⟨id, title, author, isbn, dateRead, rating, notes, coverUrl, createdAt⟩ := b
  cases isbn <;> cases notes <;> cases coverUrl <;>
    simp [BookRecord.toObj, optionalField, jsonValue, jsonFields, JSVal.int]

theorem jsonValues_records (books : List BookRecord) :
    jsonValues ((books.map BookRecord.toObj).map .obj) =
      (books.map BookRecord.toObj).map .obj := by
  induction books with
  | nil => rfl
  | cons b bs ih =>
    simp only [List.map_cons, jsonValues, ih, jsonValue_toObj]

theorem isValidCandidate_toObj (b : BookRecord) (h : b.WellFormed) :
    (truthy (getProp b.toObj "title") && truthy (getProp b.toObj "author")
      && truthy (getProp b.toObj "dateRead") && truthy (getProp b.toObj "rating")) = true := by
  obtain ⟨h1, h2, h3, h4, _, _⟩ := h
  obtain ⟨_, ht, ha, hd, hr, _, _, _, _⟩ := getProp_toObj b
  rw [ht, ha, hd, hr]
  have h4' : b.rating ≠ 0 := by omega
  simp [truthy, JSVal.int, h1, h2, h3, h4']

theorem normalizeImported_toObj_ok (env : Env) (n : Nat) (b : BookRecord) :
    ∃ a, normalizeImported env n b.toObj = .ok a := by
  unfold normalizeImported
  simp only
  split_ifs
  · have hi : getProp (stampImported env n b.toObj) "isbn" = getProp b.toObj "isbn" := by
      rw [getProp_stampImported, if_neg (by decide), if_neg (by decide)]
    rw [hi, (getProp_toObj b).2.2.2.2.2.2.1]
    cases b.isbn with
    | none => exact ⟨_, rfl⟩
    | some v =>
      simp only [getCoverUrl_str]
      exact ⟨_, rfl⟩
  · exact ⟨_, rfl⟩

theorem normalizeAll_records_ok (env : Env) (books : List BookRecord) :
    ∀ n, ∃ added, normalizeAll env n (books.map BookRecord.toObj) = .ok added := by
  induction books with
  | nil => intro n; exact ⟨[], rfl⟩
  | cons b bs ih =>
    intro n
    obtain ⟨a, ha⟩ := normalizeImported_toObj_ok env n b
    obtain ⟨rest, hrest⟩ := ih (n + 1)
    refine ⟨a :: rest, ?_⟩
    rw [List.map_cons]
    unfold normalizeAll
    rw [ha]
    simp only [hrest]
theorem importedBooks_of_export (env env' : Env) (books : List BookRecord)
    (cur : Option String) (sortBy : String)
    (hwf : ∀ b ∈ books, b.WellFormed) (hne : books ≠ []) :
    ∃ doc parsed added,
      exportData env (Store.mk (books.map BookRecord.toObj) cur sortBy) = some doc ∧
      jsonRoundTrip doc = some parsed ∧
      importedBooks env' (some parsed) = .ok added ∧
      normalizeAll env' 0 (books.map BookRecord.toObj) = .ok added := by
  obtain ⟨added, hadded⟩ := normalizeAll_records_ok env' books 0
  have hlen : ¬ ((books.map BookRecord.toObj).length = 0) := by
    simpa using hne
  refine ⟨.obj [("version", .str "1.0"), ("exportDate", .str (env.timestamp 0)),
      ("books", .arr ((books.map BookRecord.toObj).map .obj))],
    .obj [("version", .str "1.0"), ("exportDate", .str (env.timestamp 0)),
      ("books", .arr ((books.map BookRecord.toObj).map .obj))], added, ?_, ?_, ?_, hadded⟩
  · unfold exportData
    simp only [hlen, if_false]
  · simp only [jsonRoundTrip, jsonValue, jsonFields, jsonValues_records]
  · unfold importedBooks
    have hb : readProp (.obj [("version", .str "1.0"), ("exportDate", .str (env.timestamp 0)),
        ("books", .arr ((books.map BookRecord.toObj).map .obj))]) "books" =
          .ok (.arr ((books.map BookRecord.toObj).map .obj)) := rfl
    simp only [hb, filterValid_objects]
    have hall : (books.map BookRecord.toObj).filter
        (fun book => truthy (getProp book "title") && truthy (getProp book "author")
          && truthy (getProp book "dateRead") && truthy (getProp book "rating")) =
        books.map BookRecord.toObj := by
      rw [List.filter_eq_self]
      intro o ho
      obtain ⟨b, hb, rfl⟩ := List.mem_map.mp ho
      exact isValidCandidate_toObj b (hwf b hb)
    rw [hall]
    simp only [hlen, if_false]
    exact hadded

/-- C8, as amended: for every non-empty collection of book records that meet the data model,
the document built by `exportData`, written out and parsed again, is accepted whole by
`importData`: as many records are added as the collection had, the `i`-th of them has the
`i`-th generated identifier as `id`, the same `title`, `author`, `isbn`, `dateRead`, `rating`,
`notes` and `createdAt` as the `i`-th original, and the same `coverUrl` unless the original had
no (or an empty) `coverUrl` and a non-empty `isbn`, in which case `coverUrl` is
`getCoverUrl(isbn)`. -/
theorem export_import_round_trip (env env' : Env) (books : List BookRecord)
    (cur : Option String) (sortBy : String)
    (hwf : ∀ b ∈ books, b.WellFormed) (hne : books ≠ []) :
    ∃ doc parsed added,
      exportData env (Store.mk (books.map BookRecord.toObj) cur sortBy) = some doc ∧
      jsonRoundTrip doc = some parsed ∧
      (∀ s, importData env' (some parsed) s =
        (saveBooks env' { s with books := s.books ++ added }, .imported books.length)) ∧
      added.length = books.length ∧
      ∀ i b, books[i]? = some b → ∃ a, added[i]? = some a ∧
        getProp a "id" = .str (env'.generateId i) ∧
        (∀ k ∈ ["title", "author", "isbn", "dateRead", "rating", "notes", "createdAt"],
          getProp a k = getProp b.toObj k) ∧
        ((truthy (getProp b.toObj "coverUrl") = true ∨
            truthy (getProp b.toObj "isbn") = false) →
          getProp a "coverUrl" = getProp b.toObj "coverUrl") ∧
        (truthy (getProp b.toObj "coverUrl") = false →
          truthy (getProp b.toObj "isbn") = true →
          ∃ url, getCoverUrl (getProp b.toObj "isbn") = .ok url ∧
            getProp a "coverUrl" = .str url) := by
  obtain ⟨doc, parsed, added, hdoc, hparsed, himp, hnorm⟩ :=
    importedBooks_of_export env env' books cur sortBy hwf hne
  obtain ⟨hlen, hall⟩ := normalizeAll_spec env' _ 0 added hnorm
  have hlen' : added.length = books.length := by simpa using hlen
  refine ⟨doc, parsed, added, hdoc, hparsed, ?_, hlen', ?_⟩
  · intro s
    simp only [importData, himp, hlen']
  · intro i b hib
    have hi : i < added.length := by
      rw [hlen']
      exact (List.getElem?_eq_some_iff.mp hib).1
    refine ⟨added[i], List.getElem?_eq_getElem hi, ?_⟩
    obtain ⟨o, ho, hn⟩ := hall i added[i] (List.getElem?_eq_getElem hi)
    have ho' : o = b.toObj := by
      rw [List.getElem?_map, hib] at ho
      simpa using ho.symm
    subst ho'
    rw [Nat.zero_add] at hn
    obtain ⟨hkeep, hsame, hderive⟩ := normalizeImported_ok env' i b.toObj added[i] hn
    have hcreated : truthy (getProp b.toObj "createdAt") = true := by
      rw [(getProp_toObj b).2.2.2.2.2.1]
      have := (hwf b (List.mem_iff_getElem?.mpr ⟨i, hib⟩)).2.2.2.2.2
      simp [truthy, this]
    refine ⟨normalizeImported_id env' i _ _ hn, ?_, ?_, ?_⟩
    · intro k hk
      simp only [List.mem_cons, List.mem_singleton, List.not_mem_nil, or_false] at hk
      rcases hk with rfl | rfl | rfl | rfl | rfl | rfl | rfl
      all_goals
        rw [hkeep _ (by decide), getProp_stampImported]
        first
          | (rw [if_neg (by decide), if_neg (by decide)])
          | (rw [if_pos rfl, if_pos hcreated])
    · intro hor
      rw [hsame hor, getProp_stampImported, if_neg (by decide), if_neg (by decide)]
    · intro h1 h2
      obtain ⟨url, hurl, ha⟩ := hderive h1 h2
      refine ⟨url, hurl, ?_⟩
      rw [ha, getProp_setProp, if_pos rfl]

theorem export_import_round_trip_witness :
    ∃ doc parsed added,
      exportData demoEnv (Store.mk ([bareRecord].map BookRecord.toObj) none "rating-desc") =
        some doc ∧
      jsonRoundTrip doc = some parsed ∧
      (∀ s, importData demoEnv (some parsed) s =
        (saveBooks demoEnv { s with books := s.books ++ added },
          .imported [bareRecord].length)) ∧
      added.length = [bareRecord].length ∧
      ∀ i b, [bareRecord][i]? = some b → ∃ a, added[i]? = some a ∧
        getProp a "id" = .str (demoEnv.generateId i) ∧
        (∀ k ∈ ["title", "author", "isbn", "dateRead", "rating", "notes", "createdAt"],
          getProp a k = getProp b.toObj k) ∧
        ((truthy (getProp b.toObj "coverUrl") = true ∨
            truthy (getProp b.toObj "isbn") = false) →
          getProp a "coverUrl" = getProp b.toObj "coverUrl") ∧
        (truthy (getProp b.toObj "coverUrl") = false →
          truthy (getProp b.toObj "isbn") = true →
          ∃ url, getCoverUrl (getProp b.toObj "isbn") = .ok url ∧
            getProp a "coverUrl" = .str url) :=
  export_import_round_trip demoEnv demoEnv [bareRecord] none "rating-desc"
    (by
      intro b hb
      simp only [List.mem_singleton] at hb
      subst hb
      unfold BookRecord.WellFormed
      decide)
    (by simp)

/-- C8, the claim as stated fails: a record of the data model with an ISBN and no cover URL
is exported without `coverUrl`, and the record `importData` makes of it has a `coverUrl`,
derived from the ISBN. -/
theorem export_import_coverUrl_differs :
    bareRecord.WellFormed ∧
    ∃ doc parsed a,
      exportData demoEnv (Store.mk [bareRecord.toObj] none "rating-desc") = some doc ∧
      jsonRoundTrip doc = some parsed ∧
      importedBooks demoEnv (some parsed) = .ok [a] ∧
      getProp bareRecord.toObj "coverUrl" = .undefined ∧
      getProp a "coverUrl" =
        .str "https://covers.openlibrary.org/b/isbn/9780141182803-M.jpg" ∧
      getProp a "coverUrl" ≠ getProp bareRecord.toObj "coverUrl" := by
  refine ⟨by unfold BookRecord.WellFormed; decide, _, _,
    [("id", JSVal.str "lx3k9a1"), ("title", .str "Ulysses"),
      ("author", .str "Joyce"), ("isbn", .str "9780141182803"),
      ("dateRead", .str "2024-02-29"), ("rating", .int 3),
      ("createdAt", .str "2024-03-01T09:00:00.000Z"),
      ("coverUrl", .str "https://covers.openlibrary.org/b/isbn/9780141182803-M.jpg")],
    rfl, rfl, rfl, rfl, rfl, ?_⟩
  intro h
  exact JSVal.noConfusion
    (show JSVal.str "https://covers.openlibrary.org/b/isbn/9780141182803-M.jpg" =
      JSVal.undefined from h)
/-! ## Sorting by rating -/

theorem ratingKey_of_int (b : Obj) (i : Int) (h : getProp b "rating" = .int i) :
    ratingKey b = i := by
  unfold ratingKey
  rw [h]

theorem ratingIs_iff (r : Int) (b : Obj) (i : Int) (h : getProp b "rating" = .int i) :
    ratingIs r b = true ↔ i = r := by
  unfold ratingIs
  rw [h]
  simp [JSVal.int]

theorem compareRatingDesc_int (env : Env) (a b : Obj) (i j : Int)
    (ha : getProp a "rating" = .int i) (hb : getProp b "rating" = .int j) :
    compareRatingDesc env a b = .ok (.fin (j - i)) := by
  unfold compareRatingDesc
  rw [ha, hb]
  rfl

theorem sortInsert_rating (env : Env) (x : Obj)
    (hx : ∃ i : Int, getProp x "rating" = .int i) :
    ∀ l : List Obj, (∀ b ∈ l, ∃ i : Int, getProp b "rating" = .int i) →
      sortInsert (compareRatingDesc env) x l =
        .ok (List.orderedInsert (fun a b => ratingKey b ≤ ratingKey a) x l) := by
  intro l
  induction l with
  | nil => intro _; rfl
  | cons y ys ih =>
    intro hl
    obtain ⟨i, hi⟩ := hx
    obtain ⟨j, hj⟩ := hl y (List.mem_cons_self _ _)
    unfold sortInsert
    rw [compareRatingDesc_int env x y i j hi hj]
    simp only [List.orderedInsert, ratingKey_of_int x i hi, ratingKey_of_int y j hj]
    by_cases hlt : j ≤ i
    · have h0 : JSNum.lt (.fin 0) (.fin (j - i)) = false := by
        simp only [JSNum.lt, decide_eq_false_iff_not]
        omega
      simp only [h0, hlt, if_true]
      simp
    · have h0 : JSNum.lt (.fin 0) (.fin (j - i)) = true := by
        simp only [JSNum.lt, decide_eq_true_eq]
        omega
      simp only [h0, hlt, if_false, if_true]
      rw [ih (fun b hb => hl b (List.mem_cons_of_mem _ hb))]

theorem arraySort_rating (env : Env) :
    ∀ l : List Obj, (∀ b ∈ l, ∃ i : Int, getProp b "rating" = .int i) →
      arraySort (compareRatingDesc env) l =
        .ok (List.insertionSort (fun a b => ratingKey b ≤ ratingKey a) l) := by
  intro l
  induction l with
  | nil => intro _; rfl
  | cons x xs ih =>
    intro hl
    unfold arraySort
    rw [ih (fun b hb => hl b (List.mem_cons_of_mem _ hb))]
    simp only [List.insertionSort]
    apply sortInsert_rating env x (hl x (List.mem_cons_self _ _))
    intro b hb
    exact hl b (List.mem_cons_of_mem _ ((List.mem_insertionSort _).mp hb))

/-- C10: on records with integer ratings, `sortBooks` under the key 'rating-desc' returns a
permutation of the collection in which ratings never increase from first to last, and it is
stable: for each rating, the records with that rating are in the same order as before. -/
theorem sortBooks_rating_desc (env : Env) (books : List Obj)
    (hint : ∀ b ∈ books, ∃ i : Int, getProp b "rating" = .int i) :
    ∃ sorted, sortBooks env books "rating-desc" = .ok sorted ∧
      sorted.Perm books ∧
      sorted.Pairwise (fun a b => ∃ i j : Int,
        getProp a "rating" = .int i ∧ getProp b "rating" = .int j ∧ j ≤ i) ∧
      ∀ r : Int, sorted.filter (ratingIs r) = books.filter (ratingIs r) := by
  haveI : IsTotal Obj (fun a b => ratingKey b ≤ ratingKey a) := ⟨fun a b => le_total _ _⟩
  haveI : IsTrans Obj (fun a b => ratingKey b ≤ ratingKey a) :=
    ⟨fun a b c hab hbc => le_trans hbc hab⟩
  have hsort : sortBooks env books "rating-desc" =
      .ok (List.insertionSort (fun a b => ratingKey b ≤ ratingKey a) books) := by
    unfold sortBooks
    rw [if_pos rfl]
    exact arraySort_rating env books hint
  have hperm := List.perm_insertionSort (fun a b : Obj => ratingKey b ≤ ratingKey a) books
  refine ⟨_, hsort, hperm, ?_, ?_⟩
  · have hs := List.sorted_insertionSort (fun a b : Obj => ratingKey b ≤ ratingKey a) books
    have hs' : (List.insertionSort (fun a b : Obj => ratingKey b ≤ ratingKey a) books).Pairwise
        (fun a b => ratingKey b ≤ ratingKey a) := hs
    refine List.Pairwise.imp_of_mem ?_ hs'
    intro a b ha hb hab
    obtain ⟨i, hi⟩ := hint a (hperm.mem_iff.mp ha)
    obtain ⟨j, hj⟩ := hint b (hperm.mem_iff.mp hb)
    refine ⟨i, j, hi, hj, ?_⟩
    rw [ratingKey_of_int a i hi, ratingKey_of_int b j hj] at hab
    exact hab
  · intro r
    have hsub : (books.filter (ratingIs r)).Sublist
        (List.insertionSort (fun a b : Obj => ratingKey b ≤ ratingKey a) books) := by
      apply List.sublist_insertionSort
      · rw [List.pairwise_iff_forall_sublist]
        intro a b hab
        have ha : a ∈ books.filter (ratingIs r) := hab.subset (by simp)
        have hb : b ∈ books.filter (ratingIs r) := hab.subset (by simp)
        obtain ⟨ha1, ha2⟩ := List.mem_filter.mp ha
        obtain ⟨hb1, hb2⟩ := List.mem_filter.mp hb
        obtain ⟨i, hi⟩ := hint a ha1
        obtain ⟨j, hj⟩ := hint b hb1
        rw [ratingKey_of_int a i hi, ratingKey_of_int b j hj,
          (ratingIs_iff r a i hi).mp ha2, (ratingIs_iff r b j hj).mp hb2]
      · exact List.filter_sublist books
    have hsub2 := hsub.filter (ratingIs r)
    rw [List.filter_filter] at hsub2
    simp only [Bool.and_self] at hsub2
    have hlen := (hperm.filter (ratingIs r)).length_eq
    exact (hsub2.eq_of_length hlen.symm).symm

theorem sortBooks_rating_desc_witness :
    ∃ sorted, sortBooks demoEnv [emmaRecord, duneRecord] "rating-desc" = .ok sorted ∧
      sorted.Perm [emmaRecord, duneRecord] ∧
      sorted.Pairwise (fun a b => ∃ i j : Int,
        getProp a "rating" = .int i ∧ getProp b "rating" = .int j ∧ j ≤ i) ∧
      ∀ r : Int, sorted.filter (ratingIs r) = [emmaRecord, duneRecord].filter (ratingIs r) :=
  sortBooks_rating_desc demoEnv [emmaRecord, duneRecord] (by
    intro b hb
    simp only [List.mem_cons, List.mem_singleton, List.not_mem_nil, or_false] at hb
    rcases hb with rfl | rfl
    · exact ⟨4, rfl⟩
    · exact ⟨5, rfl⟩)
/-! ## The average rating -/

theorem significandExponent_spec (a n : Nat) :
    ∀ (fuel k : Nat), 2 ^ 52 * n ≤ a * 2 ^ (k + fuel) →
      2 ^ 52 * n ≤ a * 2 ^ significandExponent fuel a n k := by
  intro fuel
  induction fuel with
  | zero => intro k h; simpa [significandExponent] using h
  | succ f ih =>
    intro k h
    unfold significandExponent
    by_cases hlt : a * 2 ^ k < 2 ^ 52 * n
    · rw [if_pos hlt]
      apply ih
      have e : k + 1 + f = k + (f + 1) := by omega
      rw [e]
      exact h
    · rw [if_neg hlt]
      omega

theorem divDouble_exponent (a n : Nat) (ha : 0 < a) :
    2 ^ 52 * n ≤ a * 2 ^ significandExponent (53 + n) a n 0 := by
  apply significandExponent_spec
  have h1 : n < 2 ^ n := Nat.lt_two_pow n
  have h2 : (2 : Nat) ^ (0 + (53 + n)) = 2 ^ 52 * (2 * 2 ^ n) := by
    rw [Nat.zero_add, show 53 + n = 52 + (1 + n) by omega, pow_add, pow_add]
    norm_num
  rw [h2]
  calc 2 ^ 52 * n ≤ 2 ^ 52 * (2 * 2 ^ n) := Nat.mul_le_mul_left _ (by omega)
    _ = 1 * (2 ^ 52 * (2 * 2 ^ n)) := (Nat.one_mul _).symm
    _ ≤ a * (2 ^ 52 * (2 * 2 ^ n)) := Nat.mul_le_mul_right _ ha

theorem divDouble_nearest (a n : Nat) (ha : 0 < a) (hn : 0 < n) :
    ∃ m k, divDouble a n = (m, k) ∧ 2 ^ 52 * n ≤ a * 2 ^ k ∧
      2 * (a * 2 ^ k) ≤ 2 * (m * n) + n ∧ 2 * (m * n) ≤ 2 * (a * 2 ^ k) + n := by
  have hk := divDouble_exponent a n ha
  have ha0 : ¬ a = 0 := by omega
  unfold divDouble
  rw [if_neg ha0]
  simp only
  generalize significandExponent (53 + n) a n 0 = k at hk ⊢
  have hdiv : n * (a * 2 ^ k / n) + a * 2 ^ k % n = a * 2 ^ k := Nat.div_add_mod _ n
  have hmod : a * 2 ^ k % n < n := Nat.mod_lt _ hn
  refine ⟨_, k, rfl, hk, ?_, ?_⟩
  · generalize a * 2 ^ k = scaled at hdiv hmod ⊢
    generalize scaled / n = q at hdiv ⊢
    generalize scaled % n = r at hdiv hmod ⊢
    split_ifs <;> nlinarith
  · generalize a * 2 ^ k = scaled at hdiv hmod ⊢
    generalize scaled / n = q at hdiv ⊢
    generalize scaled % n = r at hdiv hmod ⊢
    split_ifs <;> nlinarith

theorem nearestTenths_bounds (m k : Nat) :
    2 * 2 ^ k * nearestTenths (m, k) ≤ 20 * m + 2 ^ k ∧
    20 * m + 2 ^ k < 2 * 2 ^ k * nearestTenths (m, k) + 2 * 2 ^ k := by
  unfold nearestTenths
  simp only
  have hpos : 0 < 2 * 2 ^ k := by positivity
  constructor
  · exact Nat.mul_div_le _ _
  · have := Nat.lt_mul_div_succ (20 * m + 2 ^ k) hpos
    rw [Nat.mul_add, Nat.mul_one] at this
    exact this

theorem tenths_error_iff (a n N : Nat) :
    2 * |((N : Int) * n) - 10 * a| ≤ n ↔ (2 * (N * n) ≤ 20 * a + n ∧ 20 * a ≤ 2 * (N * n) + n) := by
  constructor
  · intro h
    have h1 := abs_le.mp (show |((N : Int) * n) - 10 * a| ≤ |((N : Int) * n) - 10 * a| from le_refl _)
    constructor
    · have : (2 : Int) * ((N : Int) * n) ≤ 20 * a + n := by linarith [h1.2]
      exact_mod_cast this
    · have : (20 : Int) * a ≤ 2 * ((N : Int) * n) + n := by linarith [h1.1]
      exact_mod_cast this
  · intro ⟨h1, h2⟩
    have h1' : (2 : Int) * ((N : Int) * n) ≤ 20 * a + n := by exact_mod_cast h1
    have h2' : (20 : Int) * a ≤ 2 * ((N : Int) * n) + n := by exact_mod_cast h2
    have : |((N : Int) * n) - 10 * a| * 2 ≤ n := by
      rcases abs_cases (((N : Int) * n) - 10 * a) with ⟨he, _⟩ | ⟨he, _⟩ <;> rw [he] <;> linarith
    linarith

/-- The one-decimal value `toFixed(1)` makes of the double quotient `a / n` is a nearest
tenth of the exact quotient: `N / 10` is within `1 / 20` of `a / n`. -/
theorem nearestTenths_divDouble (a n : Nat) (hn : 0 < n) (hb : 10 * a < 2 ^ 52) :
    2 * |((nearestTenths (divDouble a n) : Int) * n) - 10 * a| ≤ n := by
  by_cases ha : a = 0
  · subst ha
    have : nearestTenths (divDouble 0 n) = 0 := by simp [divDouble, nearestTenths]
    rw [this]
    simp
  · have ha' : 0 < a := Nat.pos_of_ne_zero ha
    obtain ⟨m, k, hmk, hexp, h1, h2⟩ := divDouble_nearest a n ha' hn
    rw [hmk]
    obtain ⟨h3, h4⟩ := nearestTenths_bounds m k
    generalize nearestTenths (m, k) = N at h3 h4 ⊢
    generalize hD : 2 ^ k = D at hexp h1 h2 h3 h4
    have hDn : 10 * n < D := by
      by_contra hcon
      have hcon' : D ≤ 10 * n := by omega
      have : a * D ≤ a * (10 * n) := Nat.mul_le_mul_left _ hcon'
      have h5 : a * (10 * n) = (10 * a) * n := by ring
      have h6 : (10 * a) * n < 2 ^ 52 * n := Nat.mul_lt_mul_of_pos_right hb hn
      omega
    have e3 : 2 * (D * N * n) ≤ 20 * (m * n) + D * n := by
      have := Nat.mul_le_mul_right n h3
      calc 2 * (D * N * n) = 2 * D * N * n := by ring
        _ ≤ (20 * m + D) * n := this
        _ = 20 * (m * n) + D * n := by ring
    have e4 : 20 * (m * n) + D * n + n ≤ 2 * (D * N * n) + 2 * (D * n) := by
      have h4' : 20 * m + D + 1 ≤ 2 * D * N + 2 * D := h4
      have := Nat.mul_le_mul_right n h4'
      calc 20 * (m * n) + D * n + n = (20 * m + D + 1) * n := by ring
        _ ≤ (2 * D * N + 2 * D) * n := this
        _ = 2 * (D * N * n) + 2 * (D * n) := by ring
    rw [tenths_error_iff a n N]
    constructor
    · by_contra hcon
      push_neg at hcon
      have hc : 20 * a + n + 1 ≤ 2 * (N * n) := by omega
      have := Nat.mul_le_mul_right D hc
      have e5 : (20 * a + n + 1) * D = 20 * (a * D) + D * n + D := by ring
      have e6 : 2 * (N * n) * D = 2 * (D * N * n) := by ring
      rw [e5, e6] at this
      omega
    · by_contra hcon
      push_neg at hcon
      have hc : 2 * (N * n) + n + 1 ≤ 20 * a := by omega
      have := Nat.mul_le_mul_right D hc
      have e5 : (2 * (N * n) + n + 1) * D = 2 * (D * N * n) + D * n + D := by ring
      have e6 : 20 * a * D = 20 * (a * D) := by ring
      rw [e5, e6] at this
      omega
theorem foldl_jsPlus_int (env : Env) : ∀ (books : List Obj) (rs : List Nat) (s0 : Int),
    books.map (fun b => getProp b "rating") = rs.map (fun (r : Nat) => JSVal.int (r : Int)) →
      books.foldl (fun sum book => jsPlus env sum (getProp book "rating")) (.int s0) =
        .int (s0 + ((rs.sum : Nat) : Int)) := by
  intro books
  induction books with
  | nil =>
    intro rs s0 h
    cases rs with
    | nil => simp
    | cons r rs => exact List.noConfusion h
  | cons b bs ih =>
    intro rs s0 h
    cases rs with
    | nil => exact List.noConfusion h
    | cons r rs =>
      simp only [List.map_cons, List.cons.injEq] at h
      obtain ⟨h1, h2⟩ := h
      simp only [List.foldl_cons, h1]
      have e : jsPlus env (.int s0) (.int (r : Int)) = .int (s0 + r) := rfl
      rw [e, ih rs (s0 + r) h2]
      simp only [List.sum_cons, Nat.cast_add]
      rw [add_assoc]

/-! ## Loading from storage -/

theorem sortLoadedBooks_nil (env : Env) (sortBy : String) :
    sortLoadedBooks env [] sortBy = .ok [] := by
  unfold sortLoadedBooks
  split_ifs <;> rfl

theorem normalizeLoadedAll_null (env : Env) (strict : Bool) :
    ∀ (xs : List JSVal) (calls n : Nat), JSVal.null ∈ xs →
      ∃ e, normalizeLoadedAll env strict calls n xs = .error e := by
  intro xs
  induction xs with
  | nil => intro calls n h; simp at h
  | cons x xs ih =>
    intro calls n h
    unfold normalizeLoadedAll
    cases hx : normalizeLoaded env strict calls n x with
    | error e => exact ⟨e, rfl⟩
    | ok r =>
      obtain ⟨x', calls'⟩ := r
      rcases List.mem_cons.mp h with h | h
      · subst h
        simp [normalizeLoaded] at hx
      · obtain ⟨e, he⟩ := ih calls' (n + 1) h
        exact ⟨e, by simp only [he]⟩

theorem loadBooks_of_loadedBooks_nil (env : Env) (strict : Bool) (data : Option String)
    (parsed : Option JSVal) (sortBy : String)
    (h : loadedBooks env strict data parsed = []) :
    loadBooks env strict data parsed sortBy = .ok [] := by
  unfold loadBooks
  rw [h, sortLoadedBooks_nil]
  rfl

/-- C11, as amended: whatever the storage key holds, when the key is absent, or the stored
text is empty, or `JSON.parse` rejects it, or it parses to a value that is not an array, or to
an array with a `null` element, `loadBooks` returns without propagating a failure and the
resulting collection is empty. -/
theorem loadBooks_recovers_empty (env : Env) (strict : Bool) (data : Option String)
    (parsed : Option JSVal) (sortBy : String)
    (h : data = none ∨ data = some "" ∨ parsed = none ∨
      (∃ v, parsed = some v ∧ ∀ xs, v ≠ .arr xs) ∨
      (∃ xs, parsed = some (.arr xs) ∧ JSVal.null ∈ xs)) :
    loadBooks env strict data parsed sortBy = .ok [] := by
  apply loadBooks_of_loadedBooks_nil
  unfold loadedBooks
  cases data with
  | none => rfl
  | some text =>
    simp only
    by_cases ht : truthy (.str text) = true
    · rw [if_pos ht]
      rcases h with h | h | h | ⟨v, hv, hna⟩ | ⟨xs, hxs, hnull⟩
      · cases h
      · simp only [Option.some.injEq] at h
        subst h
        simp [truthy] at ht
      · subst h
        rfl
      · subst hv
        cases v with
        | arr xs => exact absurd rfl (hna xs)
        | undefined => rfl
        | null => rfl
        | bool b => rfl
        | num n => rfl
        | str t => rfl
        | obj o => rfl
      · subst hxs
        obtain ⟨e, he⟩ := normalizeLoadedAll_null env strict xs 0 0 hnull
        simp only [he]
    · rw [if_neg ht]

theorem loadBooks_recovers_empty_witness :
    loadBooks demoEnv false (some "not json") none "rating-desc" = .ok [] :=
  loadBooks_recovers_empty demoEnv false (some "not json") none "rating-desc"
    (Or.inr (Or.inr (Or.inl rfl)))

/-- C11, the claim as stated fails. The stored text `[{}]` parses to an array whose element
has none of the fields of a book record, and after `loadBooks` the collection holds it, with
a generated `id` and `createdAt`; and the stored text `[{"isbn":5}]` makes `renderBooks`,
called after the `try`, throw a TypeError from `getCoverUrl(5)`, which `loadBooks`
propagates. -/
theorem loadBooks_keeps_non_records :
    loadBooks demoEnv false (some "[\x7b\x7d]") (some (.arr [.obj []])) "rating-desc" =
      .ok [.obj [("id", .str "lx3k9a1"), ("createdAt", .str "2024-03-01T10:00:00.000Z")]] ∧
    loadBooks demoEnv true (some "[\x7b\x7d]") (some (.arr [.obj []])) "rating-desc" =
      .ok [.obj [("id", .str "lx3k9a1"), ("createdAt", .str "2024-03-01T10:00:00.000Z")]] ∧
    loadBooks demoEnv false (some "[\x7b\"isbn\":5\x7d]")
      (some (.arr [.obj [("isbn", .int 5)]])) "rating-desc" = .error .typeError := by
  exact ⟨rfl, rfl, rfl⟩

/-! ## Cover URL -/

theorem trim_empty : trim "" = "" := by decide

/-- C12: for a string `isbn` whose trimmed value is not empty, `getCoverUrl(isbn)` is
'https://covers.openlibrary.org/b/isbn/' followed by the trimmed value and '-M.jpg'; for an
empty or whitespace-only string, and for an absent `isbn` (`undefined` or `null`), it is the
fixed placeholder URL. -/
theorem getCoverUrl_resolution (s : String) :
    getCoverUrl (.str s) =
      .ok (if trim s = "" then DEFAULT_COVER_URL
        else "https://covers.openlibrary.org/b/isbn/" ++ trim s ++ "-M.jpg") ∧
    getCoverUrl .undefined = .ok DEFAULT_COVER_URL ∧
    getCoverUrl .null = .ok DEFAULT_COVER_URL ∧
    getCoverUrl (.str "") = .ok DEFAULT_COVER_URL ∧
    getCoverUrl (.str " \t\n ") = .ok DEFAULT_COVER_URL ∧
    DEFAULT_COVER_URL =
      "https://images.unsplash.com/photo-1544716278-ca5e3f4abd8c?ixlib=rb-4.0.3&auto=format&fit=crop&w=600&q=80" := by
  refine ⟨?_, rfl, rfl, rfl, rfl, rfl⟩
  rw [getCoverUrl_str]
  by_cases ht : trim s = ""
  · simp [ht]
  · have hs : s ≠ "" := by
      intro h
      rw [h] at ht
      exact ht trim_empty
    simp [ht, truthy, hs, OPEN_LIBRARY_COVERS_API]

/-- A truthy `isbn` that is not a string has no `trim` method: `getCoverUrl` throws. -/
theorem getCoverUrl_not_a_string :
    getCoverUrl (.int 9780141182803) = .error .typeError ∧
    getCoverUrl (.bool true) = .error .typeError ∧
    getCoverUrl (.arr []) = .error .typeError ∧
    getCoverUrl (.obj []) = .error .typeError := by
  exact ⟨rfl, rfl, rfl, rfl⟩
/-! ## Import validation -/

theorem normalizeImported_isOk (env : Env) (n : Nat) (book : Obj)
    (hisbn : truthy (getProp book "isbn") = true → ∃ t, getProp book "isbn" = .str t) :
    ∃ a, normalizeImported env n book = .ok a := by
  have hi : getProp (stampImported env n book) "isbn" = getProp book "isbn" := by
    rw [getProp_stampImported, if_neg (by decide), if_neg (by decide)]
  unfold normalizeImported
  simp only [hi]
  by_cases hc : (!truthy (getProp (stampImported env n book) "coverUrl")
      && truthy (getProp book "isbn")) = true
  · rw [if_pos hc]
    have ht : truthy (getProp book "isbn") = true := by
      cases hh : truthy (getProp book "isbn") <;> simp [hh] at hc ⊢
    obtain ⟨t, ht'⟩ := hisbn ht
    rw [ht', getCoverUrl_str]
    exact ⟨_, rfl⟩
  · rw [if_neg hc]
    exact ⟨_, rfl⟩

/-- C13, as amended: the filter of `importData` tests that `title`, `author`, `dateRead` and
`rating` are truthy and makes no range check. A candidate with truthy `title`, `author` and
`dateRead`, an `isbn` that is a string when it is truthy, and any non-zero integer rating
`r`, 9 for one, is accepted: the import of a document holding just that candidate reports one
book imported, and the record, with rating `r`, is in the collection. The same candidate with
rating 0 is rejected, 0 being falsy: the import fails and the state is as it was. -/
theorem importData_rating_not_range_checked (env : Env) (s : Store) (base : Obj) (r : Int)
    (ht : truthy (getProp base "title") = true)
    (ha : truthy (getProp base "author") = true)
    (hd : truthy (getProp base "dateRead") = true)
    (hisbn : truthy (getProp base "isbn") = true → ∃ t, getProp base "isbn" = .str t)
    (hr : r ≠ 0) :
    (∃ a, importData env
          (some (.obj [("books", .arr [.obj (setProp base "rating" (.int r))])])) s =
        (saveBooks env (Store.mk (s.books ++ [a]) s.currentBookId s.sortBy), .imported 1) ∧
      a ∈ (importData env
          (some (.obj [("books", .arr [.obj (setProp base "rating" (.int r))])])) s).1.books ∧
      getProp a "rating" = .int r) ∧
    importData env (some (.obj [("books", .arr [.obj (setProp base "rating" (.int 0))])])) s =
      (s, .failed (.error "No valid books found in the imported data.")) := by
  have hkeep : ∀ (v : JSVal) (k : String), k ≠ "rating" →
      getProp (setProp base "rating" v) k = getProp base k := by
    intro v k hk
    rw [getProp_setProp, if_neg hk]
  have hrating : ∀ v : JSVal, getProp (setProp base "rating" v) "rating" = v := by
    intro v
    rw [getProp_setProp, if_pos rfl]
  have hfilter : ∀ v : JSVal,
      filterValid [.obj (setProp base "rating" v)] =
        .ok (if truthy v then [setProp base "rating" v] else []) := by
    intro v
    have := filterValid_objects [setProp base "rating" v]
    simp only [List.map_cons, List.map_nil] at this
    rw [this, List.filter_cons, hkeep v "title" (by decide), hkeep v "author" (by decide),
      hkeep v "dateRead" (by decide), hrating, ht, ha, hd]
    cases truthy v <;> simp
  have hread : ∀ c : Obj, readProp (.obj [("books", .arr [.obj c])]) "books" =
      .ok (.arr [.obj c]) := fun _ => rfl
  constructor
  · have hisbn' : truthy (getProp (setProp base "rating" (.int r)) "isbn") = true →
        ∃ t, getProp (setProp base "rating" (.int r)) "isbn" = .str t := by
      rw [hkeep _ "isbn" (by decide)]
      exact hisbn
    obtain ⟨a, hnorm⟩ := normalizeImported_isOk env 0 (setProp base "rating" (.int r)) hisbn'
    have htr : truthy (.int r) = true := by simp [truthy, JSVal.int, hr]
    have himp : importedBooks env
        (some (.obj [("books", .arr [.obj (setProp base "rating" (.int r))])])) = .ok [a] := by
      unfold importedBooks
      simp only [hread, hfilter, htr, if_true]
      simp only [List.length_singleton, Nat.succ_ne_zero, if_false, normalizeAll, hnorm]
    have hres : importData env
          (some (.obj [("books", .arr [.obj (setProp base "rating" (.int r))])])) s =
        (saveBooks env (Store.mk (s.books ++ [a]) s.currentBookId s.sortBy), .imported 1) := by
      simp only [importData, himp, List.length_singleton]
    refine ⟨a, hres, ?_, ?_⟩
    · rw [hres]
      exact (saveBooks_perm env _).mem_iff.mpr (by simp)
    · rw [(normalizeImported_ok env 0 _ a hnorm).1 "rating" (by decide),
        getProp_stampImported, if_neg (by decide), if_neg (by decide), hrating]
  · have htr : truthy (.int 0) = false := rfl
    have himp : importedBooks env
        (some (.obj [("books", .arr [.obj (setProp base "rating" (.int 0))])])) =
          .error (.error "No valid books found in the imported data.") := by
      unfold importedBooks
      simp only [hread, hfilter, htr]
      rfl
    exact importData_failed_unchanged env _ s _ himp

theorem importData_rating_not_range_checked_witness :
    (∃ a, importData demoEnv
          (some (.obj [("books", .arr [.obj (setProp [("title", .str "A"),
            ("author", .str "B"), ("dateRead", .str "2024-01-01")] "rating" (.int 9))])]))
          demoStore =
        (saveBooks demoEnv (Store.mk (demoStore.books ++ [a]) demoStore.currentBookId
          demoStore.sortBy), .imported 1) ∧
      a ∈ (importData demoEnv
          (some (.obj [("books", .arr [.obj (setProp [("title", .str "A"),
            ("author", .str "B"), ("dateRead", .str "2024-01-01")] "rating" (.int 9))])]))
          demoStore).1.books ∧
      getProp a "rating" = .int 9) ∧
    importData demoEnv
        (some (.obj [("books", .arr [.obj (setProp [("title", .str "A"),
          ("author", .str "B"), ("dateRead", .str "2024-01-01")] "rating" (.int 0))])]))
        demoStore =
      (demoStore, .failed (.error "No valid books found in the imported data.")) :=
  importData_rating_not_range_checked demoEnv demoStore
    [("title", .str "A"), ("author", .str "B"), ("dateRead", .str "2024-01-01")] 9
    (by rfl) (by rfl) (by rfl) (by intro h; exact absurd h (by decide)) (by decide)

/-- C13, the claim as stated fails for rating 0: a candidate with `title`, `author` and
`dateRead` present and `rating` 0 does not pass the filter of `importData`, the import fails
with "No valid books found in the imported data." and the collection is as it was. -/
theorem importData_rejects_rating_zero :
    filterValid [.obj [("title", .str "A"), ("author", .str "B"),
      ("dateRead", .str "2024-01-01"), ("rating", .int 0)]] = .ok [] ∧
    importData demoEnv
        (some (.obj [("books", .arr [.obj [("title", .str "A"), ("author", .str "B"),
          ("dateRead", .str "2024-01-01"), ("rating", .int 0)]])])) demoStore =
      (demoStore, .failed (.error "No valid books found in the imported data.")) := by
  exact ⟨rfl, rfl⟩
/-! ## The exact average -/

theorem nearestTenths_divDouble_exact (a n : Nat) (hn : 0 < n) (hb : 10 * a < 2 ^ 52) :
    nearestTenths (divDouble a n) =
      if (meanIsHalfway a n && quotientBelowMean a n) = true then meanTenthsHalfUp a n - 1
      else meanTenthsHalfUp a n := by
  have hbound := (tenths_error_iff a n (nearestTenths (divDouble a n))).mp
    (nearestTenths_divDouble a n hn hb)
  obtain ⟨hb1, hb2⟩ := hbound
  unfold quotientBelowMean meanIsHalfway meanTenthsHalfUp
  generalize hx : divDouble a n = x at hb1 hb2 ⊢
  obtain ⟨m, k⟩ := x
  obtain ⟨h3, h4⟩ := nearestTenths_bounds m k
  simp only
  generalize nearestTenths (m, k) = N at hb1 hb2 h3 h4 ⊢
  generalize hD : 2 ^ k = D at h3 h4 ⊢
  have hpos : 0 < 2 * n := by omega
  have hH1 : 2 * n * ((20 * a + n) / (2 * n)) ≤ 20 * a + n := Nat.mul_div_le _ _
  have hH2 : 20 * a + n < 2 * n * ((20 * a + n) / (2 * n)) + 2 * n := by
    have := Nat.lt_mul_div_succ (20 * a + n) hpos
    rw [Nat.mul_add, Nat.mul_one] at this
    exact this
  have hmod := Nat.div_add_mod (20 * a + n) (2 * n)
  generalize (20 * a + n) / (2 * n) = H at hH1 hH2 hmod ⊢
  generalize (20 * a + n) % (2 * n) = R at hmod ⊢
  have hNH : N ≤ H := by
    by_contra hcon
    have h1 : H + 1 ≤ N := by omega
    have h2 : n * (H + 1) ≤ n * N := Nat.mul_le_mul_left _ h1
    have e1 : n * (H + 1) = n * H + n := by ring
    have e2 : 2 * n * H = 2 * (n * H) := by ring
    have e3 : N * n = n * N := by ring
    rw [e1] at h2
    rw [e2] at hH2
    rw [e3] at hb1
    omega
  have hHN : H ≤ N + 1 := by
    by_contra hcon
    have h1 : N + 2 ≤ H := by omega
    have h2 : n * (N + 2) ≤ n * H := Nat.mul_le_mul_left _ h1
    have e1 : n * (N + 2) = n * N + 2 * n := by ring
    have e2 : 2 * n * H = 2 * (n * H) := by ring
    have e3 : N * n = n * N := by ring
    rw [e1] at h2
    rw [e2] at hH1
    rw [e3] at hb2
    omega
  by_cases htie : R = 0
  · subst htie
    have hexact : 2 * (n * H) = 20 * a + n := by
      have e2 : 2 * n * H = 2 * (n * H) := by ring
      rw [e2] at hmod
      omega
    by_cases hlt : m * n < a * D
    · have hcond : ((0 == 0) && decide (m * n < a * D)) = true := by simp [hlt]
      rw [if_pos hcond]
      have hlt' : N < H := by
        by_contra hcon
        have h1 : H ≤ N := by omega
        have h2 : 2 * D * H ≤ 2 * D * N := Nat.mul_le_mul_left _ h1
        have h5 : 2 * D * H ≤ 20 * m + D := le_trans h2 h3
        have h6 := Nat.mul_le_mul_right n h5
        have e1 : 2 * D * H * n = D * (2 * (n * H)) := by ring
        have e2 : (20 * m + D) * n = 20 * (m * n) + D * n := by ring
        have e3 : D * (20 * a + n) = 20 * (a * D) + D * n := by ring
        rw [e1, hexact, e2, e3] at h6
        omega
      omega
    · have hcond : ¬ (((0 == 0) && decide (m * n < a * D)) = true) := by simp [hlt]
      rw [if_neg hcond]
      have hge : H ≤ N := by
        by_contra hcon
        have h1 : N + 1 ≤ H := by omega
        have h2 : 2 * D * (N + 1) ≤ 2 * D * H := Nat.mul_le_mul_left _ h1
        have e0 : 2 * D * (N + 1) = 2 * D * N + 2 * D := by ring
        rw [e0] at h2
        have h5 : 20 * m + D + 1 ≤ 2 * D * H := by omega
        have h6 := Nat.mul_le_mul_right n h5
        have e1 : 2 * D * H * n = D * (2 * (n * H)) := by ring
        have e2 : (20 * m + D + 1) * n = 20 * (m * n) + D * n + n := by ring
        have e3 : D * (20 * a + n) = 20 * (a * D) + D * n := by ring
        rw [e1, hexact, e2, e3] at h6
        omega
      omega
  · have hcond : ¬ (((R == 0) && decide (m * n < a * D)) = true) := by simp [htie]
    rw [if_neg hcond]
    have hne : H ≠ N + 1 := by
      intro hh
      have e2 : 2 * n * H = 2 * (n * H) := by ring
      have e3 : N * n = n * N := by ring
      have e4 : n * H = n * N + n := by rw [hh]; ring
      rw [e2] at hmod
      rw [e3] at hb2
      omega
    omega

theorem meanTenthsHalfDown_eq_halfUp (a n : Nat) (hn : 0 < n)
    (h : meanIsHalfway a n = false) : meanTenthsHalfDown a n = meanTenthsHalfUp a n := by
  unfold meanIsHalfway at h
  unfold meanTenthsHalfDown meanTenthsHalfUp
  have hmod : (20 * a + n) % (2 * n) ≠ 0 := by simpa using h
  have hdvd : ¬ (2 * n ∣ 20 * a + n - 1 + 1) := by
    have e : 20 * a + n - 1 + 1 = 20 * a + n := by omega
    rw [e]
    intro hd
    exact hmod (Nat.mod_eq_zero_of_dvd hd)
  have := Nat.succ_div (20 * a + n - 1) (2 * n)
  rw [if_neg hdvd] at this
  have e : 20 * a + n - 1 + 1 = 20 * a + n := by omega
  rw [e] at this
  omega

theorem meanTenthsHalfEven_eq_halfUp (a n : Nat)
    (h : meanIsHalfway a n = false) : meanTenthsHalfEven a n = meanTenthsHalfUp a n := by
  unfold meanTenthsHalfEven
  simp [h]
theorem calculateStats_avgRating (env : Env) (books : List Obj) (rs : List Nat)
    (hr : books.map (fun b => getProp b "rating") =
      rs.map (fun (r : Nat) => JSVal.int (r : Int)))
    (hne : books ≠ []) :
    (calculateStats env books).avgRating =
      fixed1Text (nearestTenths (divDouble rs.sum books.length)) := by
  have hfold := foldl_jsPlus_int env books rs 0 hr
  rw [zero_add] at hfold
  have hpos : books.length > 0 := List.length_pos.mpr hne
  simp only [calculateStats, hpos, if_true, hfold]
  simp only [quotientToFixed1, primNumber, JSVal.int]
  have hnn : ¬ ((rs.sum : Nat) : Int) < 0 := by omega
  rw [if_neg hnn, Int.natAbs_ofNat]

/-- C9, as amended: for records whose ratings are non-negative integers with
`10 * sum < 2 ^ 52` (ratings in [1,5] in an array are such), `calculateStats` reports the
number of records as count, and "0.0" with count 0 for the empty collection. Otherwise the
average text is the one-decimal text of the mean rounded to the nearest tenth, a half rounded
up, except when the mean lies exactly halfway between two tenths and the double `sum / count`
lies below it: the text is then that of the lower tenth. When the mean is not halfway,
rounding a half up, down or to even give the same tenth. Ratings 5, 4, 5 give count 3 and
average "4.7". -/
theorem calculateStats_average_exact (env : Env) (books : List Obj) (rs : List Nat)
    (hr : books.map (fun b => getProp b "rating") =
      rs.map (fun (r : Nat) => JSVal.int (r : Int)))
    (hb : 10 * rs.sum < 2 ^ 52) :
    (calculateStats env books).totalBooks = books.length ∧
    (books = [] → (calculateStats env books).totalBooks = 0 ∧
      (calculateStats env books).avgRating = "0.0") ∧
    (books ≠ [] → (calculateStats env books).avgRating =
      fixed1Text
        (if (meanIsHalfway rs.sum books.length && quotientBelowMean rs.sum books.length) = true
          then meanTenthsHalfUp rs.sum books.length - 1
          else meanTenthsHalfUp rs.sum books.length)) ∧
    (books ≠ [] → meanIsHalfway rs.sum books.length = false →
      (calculateStats env books).avgRating = fixed1Text (meanTenthsHalfUp rs.sum books.length) ∧
      meanTenthsHalfDown rs.sum books.length = meanTenthsHalfUp rs.sum books.length ∧
      meanTenthsHalfEven rs.sum books.length = meanTenthsHalfUp rs.sum books.length) ∧
    (rs = [5, 4, 5] → (calculateStats env books).totalBooks = 3 ∧
      (calculateStats env books).avgRating = "4.7") := by
  have hexact : books ≠ [] → (calculateStats env books).avgRating =
      fixed1Text
        (if (meanIsHalfway rs.sum books.length && quotientBelowMean rs.sum books.length) = true
          then meanTenthsHalfUp rs.sum books.length - 1
          else meanTenthsHalfUp rs.sum books.length) := by
    intro hne
    rw [calculateStats_avgRating env books rs hr hne,
      nearestTenths_divDouble_exact rs.sum books.length (List.length_pos.mpr hne) hb]
  refine ⟨rfl, ?_, hexact, ?_, ?_⟩
  · intro h
    subst h
    exact ⟨rfl, rfl⟩
  · intro hne hhalf
    refine ⟨?_, meanTenthsHalfDown_eq_halfUp _ _ (List.length_pos.mpr hne) hhalf,
      meanTenthsHalfEven_eq_halfUp _ _ hhalf⟩
    rw [hexact hne, hhalf]
    simp
  · intro h5
    subst h5
    have hlen : books.length = 3 := by
      have := congrArg List.length hr
      simpa using this
    have hne : books ≠ [] := by
      intro h
      rw [h] at hlen
      cases hlen
    refine ⟨hlen, ?_⟩
    rw [calculateStats_avgRating env books _ hr hne, hlen]
    rfl

theorem calculateStats_average_exact_witness :
    (calculateStats demoEnv
      [ratedRecord "a1" 5, ratedRecord "b2" 4, ratedRecord "c3" 5]).totalBooks =
      [ratedRecord "a1" 5, ratedRecord "b2" 4, ratedRecord "c3" 5].length ∧
    ([ratedRecord "a1" 5, ratedRecord "b2" 4, ratedRecord "c3" 5] = [] →
      (calculateStats demoEnv
        [ratedRecord "a1" 5, ratedRecord "b2" 4, ratedRecord "c3" 5]).totalBooks = 0 ∧
      (calculateStats demoEnv
        [ratedRecord "a1" 5, ratedRecord "b2" 4, ratedRecord "c3" 5]).avgRating = "0.0") ∧
    ([ratedRecord "a1" 5, ratedRecord "b2" 4, ratedRecord "c3" 5] ≠ [] →
      (calculateStats demoEnv
        [ratedRecord "a1" 5, ratedRecord "b2" 4, ratedRecord "c3" 5]).avgRating =
      fixed1Text
        (if (meanIsHalfway ([5, 4, 5] : List Nat).sum
              [ratedRecord "a1" 5, ratedRecord "b2" 4, ratedRecord "c3" 5].length &&
            quotientBelowMean ([5, 4, 5] : List Nat).sum
              [ratedRecord "a1" 5, ratedRecord "b2" 4, ratedRecord "c3" 5].length) = true
          then meanTenthsHalfUp ([5, 4, 5] : List Nat).sum
            [ratedRecord "a1" 5, ratedRecord "b2" 4, ratedRecord "c3" 5].length - 1
          else meanTenthsHalfUp ([5, 4, 5] : List Nat).sum
            [ratedRecord "a1" 5, ratedRecord "b2" 4, ratedRecord "c3" 5].length)) ∧
    ([ratedRecord "a1" 5, ratedRecord "b2" 4, ratedRecord "c3" 5] ≠ [] →
      meanIsHalfway ([5, 4, 5] : List Nat).sum
        [ratedRecord "a1" 5, ratedRecord "b2" 4, ratedRecord "c3" 5].length = false →
      (calculateStats demoEnv
        [ratedRecord "a1" 5, ratedRecord "b2" 4, ratedRecord "c3" 5]).avgRating =
        fixed1Text (meanTenthsHalfUp ([5, 4, 5] : List Nat).sum
          [ratedRecord "a1" 5, ratedRecord "b2" 4, ratedRecord "c3" 5].length) ∧
      meanTenthsHalfDown ([5, 4, 5] : List Nat).sum
          [ratedRecord "a1" 5, ratedRecord "b2" 4, ratedRecord "c3" 5].length =
        meanTenthsHalfUp ([5, 4, 5] : List Nat).sum
          [ratedRecord "a1" 5, ratedRecord "b2" 4, ratedRecord "c3" 5].length ∧
      meanTenthsHalfEven ([5, 4, 5] : List Nat).sum
          [ratedRecord "a1" 5, ratedRecord "b2" 4, ratedRecord "c3" 5].length =
        meanTenthsHalfUp ([5, 4, 5] : List Nat).sum
          [ratedRecord "a1" 5, ratedRecord "b2" 4, ratedRecord "c3" 5].length) ∧
    (([5, 4, 5] : List Nat) = [5, 4, 5] →
      (calculateStats demoEnv
        [ratedRecord "a1" 5, ratedRecord "b2" 4, ratedRecord "c3" 5]).totalBooks = 3 ∧
      (calculateStats demoEnv
        [ratedRecord "a1" 5, ratedRecord "b2" 4, ratedRecord "c3" 5]).avgRating = "4.7") :=
  calculateStats_average_exact demoEnv
    [ratedRecord "a1" 5, ratedRecord "b2" 4, ratedRecord "c3" 5] [5, 4, 5] (by rfl)
    (by norm_num)

/-- C9, the claim as stated fails on a mean that lies halfway between two tenths. Twenty
records with ratings summing to 87 have mean 4.35, which rounds to 4.4 with a half rounded up
or to even, and the text shown is "4.3"; four records with ratings summing to 5 have mean
1.25, which rounds to 1.2 with a half rounded down or to even, and the text shown is "1.3".
Under no rule for halves is the text the rounded mean on both collections. -/
theorem calculateStats_tie_not_rounded_mean :
    (calculateStats demoEnv
      (List.replicate 7 (ratedRecord "a1" 5) ++ List.replicate 13 (ratedRecord "b2" 4))).avgRating
      = "4.3" ∧
    fixed1Text (meanTenthsHalfUp 87 20) = "4.4" ∧
    fixed1Text (meanTenthsHalfEven 87 20) = "4.4" ∧
    (calculateStats demoEnv
      (List.replicate 3 (ratedRecord "a1" 1) ++ [ratedRecord "b2" 2])).avgRating = "1.3" ∧
    fixed1Text (meanTenthsHalfDown 5 4) = "1.2" ∧
    fixed1Text (meanTenthsHalfEven 5 4) = "1.2" := by
  exact ⟨rfl, rfl, rfl, rfl, rfl, rfl⟩
/-! ## What an import adds -/

theorem normalizeImported_isOk_of_cover (env : Env) (n : Nat) (book : Obj)
    (hisbn : truthy (getProp book "coverUrl") = false → truthy (getProp book "isbn") = true →
      ∃ t, getProp book "isbn" = .str t) :
    ∃ a, normalizeImported env n book = .ok a := by
  have hi : getProp (stampImported env n book) "isbn" = getProp book "isbn" := by
    rw [getProp_stampImported, if_neg (by decide), if_neg (by decide)]
  have hc : getProp (stampImported env n book) "coverUrl" = getProp book "coverUrl" := by
    rw [getProp_stampImported, if_neg (by decide), if_neg (by decide)]
  unfold normalizeImported
  simp only [hi, hc]
  by_cases hcond : (!truthy (getProp book "coverUrl") && truthy (getProp book "isbn")) = true
  · rw [if_pos hcond]
    have h1 : truthy (getProp book "coverUrl") = false := by
      cases hh : truthy (getProp book "coverUrl") <;> simp [hh] at hcond ⊢
    have h2 : truthy (getProp book "isbn") = true := by
      cases hh : truthy (getProp book "isbn") <;> simp [hh] at hcond ⊢
    obtain ⟨t, ht⟩ := hisbn h1 h2
    rw [ht, getCoverUrl_str]
    exact ⟨_, rfl⟩
  · rw [if_neg hcond]
    exact ⟨_, rfl⟩

theorem normalizeAll_isOk (env : Env) : ∀ (bs : List Obj) (n : Nat),
    (∀ c ∈ bs, truthy (getProp c "coverUrl") = false → truthy (getProp c "isbn") = true →
      ∃ t, getProp c "isbn" = .str t) →
    ∃ added, normalizeAll env n bs = .ok added := by
  intro bs
  induction bs with
  | nil => intro n _; exact ⟨[], rfl⟩
  | cons b bs ih =>
    intro n h
    obtain ⟨a, ha⟩ := normalizeImported_isOk_of_cover env n b (h b (List.mem_cons_self _ _))
    obtain ⟨rest, hrest⟩ := ih (n + 1) (fun c hc => h c (List.mem_cons_of_mem _ hc))
    refine ⟨a :: rest, ?_⟩
    unfold normalizeAll
    rw [ha]
    simp only [hrest]

/-- C6, as amended: on a document whose `books` property is an array of objects in which no
candidate that passes the filter has a falsy `coverUrl` together with a truthy `isbn` that is
not a string, `importData` accepts exactly the candidates whose `title`, `author`,
`dateRead` and `rating` are all present and truthy, and rejects every other one. The accepted
candidates are a sublist of the document's array; when there is one at least, the collection
becomes the old one followed by the accepted candidates, each normalised, in document order
(then re-ordered by `saveBooks`), the count reported is their number, and a normalised
candidate has the generated `id` and, `createdAt` and `coverUrl` apart, the properties of
the candidate; when there is none the import fails and the state is as it was. -/
theorem importData_accepts_exactly_truthy (env : Env) (s : Store) (fs : Obj) (cs : List Obj)
    (hbooks : getProp fs "books" = .arr (cs.map .obj))
    (hisbn : ∀ c ∈ cs,
      (∀ k ∈ ["title", "author", "dateRead", "rating"], truthy (getProp c k) = true) →
      truthy (getProp c "coverUrl") = false → truthy (getProp c "isbn") = true →
      ∃ t, getProp c "isbn" = .str t) :
    ∃ accepted added,
      filterValid (cs.map .obj) = .ok accepted ∧
      (∀ c, c ∈ accepted ↔ c ∈ cs ∧
        ∀ k ∈ ["title", "author", "dateRead", "rating"],
          ∃ v, lookupProp c k = some v ∧ truthy v = true) ∧
      accepted.Sublist cs ∧
      normalizeAll env 0 accepted = .ok added ∧
      added.length = accepted.length ∧
      (∀ i a, added[i]? = some a → ∃ c, accepted[i]? = some c ∧
        getProp a "id" = .str (env.generateId i) ∧
        ∀ k, k ≠ "id" → k ≠ "createdAt" → k ≠ "coverUrl" → getProp a k = getProp c k) ∧
      (accepted ≠ [] →
        importData env (some (.obj fs)) s =
          (saveBooks env (Store.mk (s.books ++ added) s.currentBookId s.sortBy),
            .imported accepted.length) ∧
        (importData env (some (.obj fs)) s).1.books.Perm (s.books ++ added)) ∧
      (accepted = [] →
        importData env (some (.obj fs)) s =
          (s, .failed (.error "No valid books found in the imported data."))) := by
  have hfilter := filterValid_objects cs
  have hmem : ∀ c, c ∈ cs.filter (fun book => truthy (getProp book "title")
      && truthy (getProp book "author") && truthy (getProp book "dateRead")
      && truthy (getProp book "rating")) ↔
      c ∈ cs ∧ ∀ k ∈ ["title", "author", "dateRead", "rating"],
        truthy (getProp c k) = true := by
    intro c
    simp only [List.mem_filter, Bool.and_eq_true, List.mem_cons, List.mem_singleton,
      List.not_mem_nil, or_false, forall_eq_or_imp, forall_eq]
    tauto
  generalize hacc : cs.filter (fun book => truthy (getProp book "title")
      && truthy (getProp book "author") && truthy (getProp book "dateRead")
      && truthy (getProp book "rating")) = accepted at hfilter hmem
  have hsub : accepted.Sublist cs := by
    rw [← hacc]
    exact List.filter_sublist cs
  obtain ⟨added, hadded⟩ := normalizeAll_isOk env accepted 0 (by
    intro c hc h1 h2
    obtain ⟨hcs, hall⟩ := (hmem c).mp hc
    exact hisbn c hcs hall h1 h2)
  obtain ⟨hlen, hper⟩ := normalizeAll_spec env accepted 0 added hadded
  have himp : importedBooks env (some (.obj fs)) =
      if accepted.length = 0 then .error (.error "No valid books found in the imported data.")
      else .ok added := by
    unfold importedBooks
    simp only [readProp, hbooks, hfilter, hadded]
  refine ⟨accepted, added, hfilter, ?_, hsub, hadded, hlen, ?_, ?_, ?_⟩
  · intro c
    rw [hmem c]
    simp only [truthy_getProp_iff]
  · intro i a hia
    obtain ⟨c, hc, hn⟩ := hper i a hia
    rw [Nat.zero_add] at hn
    refine ⟨c, hc, normalizeImported_id env i c a hn, ?_⟩
    intro k hk1 hk2 hk3
    rw [(normalizeImported_ok env i c a hn).1 k hk3, getProp_stampImported,
      if_neg hk2, if_neg hk1]
  · intro hne
    have hlen0 : ¬ accepted.length = 0 := by
      intro h
      exact hne (List.length_eq_zero.mp h)
    rw [if_neg hlen0] at himp
    have hres : importData env (some (.obj fs)) s =
        (saveBooks env (Store.mk (s.books ++ added) s.currentBookId s.sortBy),
          .imported accepted.length) := by
      simp only [importData, himp, hlen]
    refine ⟨hres, ?_⟩
    rw [hres]
    exact saveBooks_perm env _
  · intro hnil
    have hlen0 : accepted.length = 0 := by rw [hnil]; rfl
    rw [if_pos hlen0] at himp
    exact importData_failed_unchanged env _ s _ himp
theorem importData_accepts_exactly_truthy_witness :
    ∃ accepted added,
      filterValid (sampleCandidates.map .obj) = .ok accepted ∧
      (∀ c, c ∈ accepted ↔ c ∈ sampleCandidates ∧
        ∀ k ∈ ["title", "author", "dateRead", "rating"],
          ∃ v, lookupProp c k = some v ∧ truthy v = true) ∧
      accepted.Sublist sampleCandidates ∧
      normalizeAll demoEnv 0 accepted = .ok added ∧
      added.length = accepted.length ∧
      (∀ i a, added[i]? = some a → ∃ c, accepted[i]? = some c ∧
        getProp a "id" = .str (demoEnv.generateId i) ∧
        ∀ k, k ≠ "id" → k ≠ "createdAt" → k ≠ "coverUrl" → getProp a k = getProp c k) ∧
      (accepted ≠ [] →
        importData demoEnv (some (.obj [("books", .arr (sampleCandidates.map .obj))]))
            demoStore =
          (saveBooks demoEnv
            (Store.mk (demoStore.books ++ added) demoStore.currentBookId demoStore.sortBy),
            .imported accepted.length) ∧
        (importData demoEnv (some (.obj [("books", .arr (sampleCandidates.map .obj))]))
          demoStore).1.books.Perm (demoStore.books ++ added)) ∧
      (accepted = [] →
        importData demoEnv (some (.obj [("books", .arr (sampleCandidates.map .obj))]))
            demoStore =
          (demoStore, .failed (.error "No valid books found in the imported data."))) :=
  importData_accepts_exactly_truthy demoEnv demoStore
    [("books", .arr (sampleCandidates.map .obj))] sampleCandidates (by rfl) (by
      intro c hc _ _ h2
      simp only [sampleCandidates, List.mem_cons, List.mem_singleton, List.not_mem_nil,
        or_false] at hc
      rcases hc with rfl | rfl
      · exact absurd h2 (by decide)
      · exact absurd h2 (by decide))

/-- C6, the claim as stated fails: a candidate whose `title`, `author`, `dateRead` and
`rating` are present and truthy passes the filter, and when its `isbn` is a number (and it
has no `coverUrl`) the call `isbn.trim()` of `getCoverUrl` throws: `importData` reports a
failure and accepts nothing. -/
theorem importData_numeric_isbn_accepts_nothing :
    filterValid [.obj numericIsbnCandidate] = .ok [numericIsbnCandidate] ∧
    importData demoEnv (some (.obj [("books", .arr [.obj numericIsbnCandidate])])) demoStore =
      (demoStore, .failed .typeError) := by
  exact ⟨rfl, rfl⟩

end BookNotes
